import Mathlib

/-!
Verification of the Rosobrnadzor accreditation-data ingestion pipeline
(data_loader/loader.py and models.py) against its specification.

The development shallowly embeds the pipeline:

* Python strings become Lean `String`s; the Python case-mapping functions
  (`str.lower`, `str.capitalize`) are modelled on the alphabets that occur in
  this code base (ASCII and Russian Cyrillic), which is exactly the behaviour
  Python exhibits on those characters.
* The lxml element trees consumed by `DataLoader._parse_xml_files` become the
  inductive type `Elem`; `Element.findtext` on the single-tag paths used by the
  loader becomes a first-matching-child lookup.
* The SQLAlchemy session used by `DataLoader._populate_db` becomes explicit
  state passing over `DB`, a record of the five tables.  Because the session
  runs with autoflush, every pending row is flushed (and hence visible to
  queries) before each query the loader performs; the model therefore applies
  inserts to the transaction view immediately.  Primary keys are assigned from
  per-table counters at insert.  One deliberate exception reproduces deferred
  primary-key assignment where the source observably depends on it: in
  `_populate_db` the Specialty defaults dictionary captures `group.id` *before*
  any flush, so when the SpecialtyGroup was created in the same loop iteration
  the captured value is Python `None`, and the subsequent autoflush violates the
  NOT NULL constraint on `specialty.group_id` (models.py declares
  `nullable=False`).  The model records this as `PopErr.notNullViolation`.
* Persistence faults are modelled by a fault oracle `Nat → Bool` consulted at
  each row-writing operation and at the final commit; `noFaults` is the
  fault-free oracle.
* `session_scope` (commit once on success, rollback and re-raise on any
  exception) becomes the wrapper in `populateDb`: the committed database after
  a failed run is the database from before the run.
-/

/-! ## Python string primitives (on the ASCII and Cyrillic alphabets) -/

/-- Lower-case one character the way Python `str.lower` does on ASCII and
Russian Cyrillic letters. -/
def pyLowerChar (c : Char) : Char :=
  let n := c.toNat
  if 65 ≤ n ∧ n ≤ 90 then Char.ofNat (n + 32)
  else if 0x410 ≤ n ∧ n ≤ 0x42F then Char.ofNat (n + 0x20)
  else if n = 0x401 then Char.ofNat 0x451
  else c

/-- Upper-case one character the way Python `str.upper` does on ASCII and
Russian Cyrillic letters. -/
def pyUpperChar (c : Char) : Char :=
  let n := c.toNat
  if 97 ≤ n ∧ n ≤ 122 then Char.ofNat (n - 32)
  else if 0x430 ≤ n ∧ n ≤ 0x44F then Char.ofNat (n - 0x20)
  else if n = 0x451 then Char.ofNat 0x401
  else c

/-- Python `str.lower`. -/
def pyLower (s : String) : String :=
  String.mk (s.data.map pyLowerChar)

/-- Python `str.capitalize`: first character upper-cased, every remaining
character lower-cased. -/
def pyCapitalize (s : String) : String :=
  match s.data with
  | [] => ""
  | c :: cs => String.mk (pyUpperChar c :: cs.map pyLowerChar)

/-- The whitespace characters stripped by Python `str.strip` that can occur in
the loader's inputs. -/
def pySpace (c : Char) : Bool :=
  c = ' ' || c = '\t' || c = '\n' || c = '\r' || c.toNat = 11 || c.toNat = 12

/-- Python `str.strip`. -/
def pyStrip (s : String) : String :=
  String.mk (((s.data.dropWhile pySpace).reverse.dropWhile pySpace).reverse)

/-- Substring test on character lists: Python `needle in hay`. -/
def listContains : List Char → List Char → Bool
  | _, [] => true
  | [], _ :: _ => false
  | h :: t, n :: ns => List.isPrefixOf (n :: ns) (h :: t) || listContains t (n :: ns)

/-- Python `sub in s` for strings. -/
def strContains (hay sub : String) : Bool :=
  listContains hay.data sub.data

/-- Split a character list at the first comma, Python `s.split(char, 1)` with a
found separator reported as `some (before, after)`. -/
def breakAtComma : List Char → Option (List Char × List Char)
  | [] => none
  | c :: cs =>
    if c = ',' then some ([], cs)
    else (breakAtComma cs).map (fun p => (c :: p.1, p.2))

/-- Python `s.split(sep, 1)`: one or two pieces. -/
def pySplitOnce (s : String) : List String :=
  match breakAtComma s.data with
  | none => [s]
  | some (a, b) => [String.mk a, String.mk b]

/-- Python `s.isdigit()` on ASCII digits. -/
def pyIsDigit (s : String) : Bool :=
  s.data ≠ [] && s.data.all Char.isDigit

/-- Modelled from the spec: the spec-side normalization of region names, "title-cased"
in the ordinary Python `str.title` sense (each cased run starts upper, continues
lower).  This definition exists only to compare the specification's wording
with what the source computes (`pyCapitalize`). -/
def specIsCased (c : Char) : Bool :=
  let n := c.toNat
  (65 ≤ n && n ≤ 90) || (97 ≤ n && n ≤ 122) ||
    (0x410 ≤ n && n ≤ 0x44F) || n = 0x401 || n = 0x451

/-- Helper for `specTitleCase`: walk the characters remembering whether the
previous character was cased. -/
def specTitleAux : Bool → List Char → List Char
  | _, [] => []
  | prev, c :: cs =>
    (if specIsCased c then (if prev then pyLowerChar c else pyUpperChar c) else c)
      :: specTitleAux (specIsCased c) cs

/-- Modelled from the spec: Python-style title-casing of a whole string. -/
def specTitleCase (s : String) : String :=
  String.mk (specTitleAux false s.data)

/-! ## DataLoader._extract_region_from_address -/

/-- The hard-coded list of recognizable region substrings
(loader.py, `possible_regions`). -/
def possibleRegions : List String :=
  ["г. москва", "московская область", "г. санкт-петербург", "ленинградская область"]

/-- `DataLoader._extract_region_from_address`: look for a known region inside
the lower-cased address; otherwise take the part before the first comma,
skipping a six-digit leading postal code; otherwise report nothing. -/
def extractRegionFromAddress (address : String) : Option String :=
  let address_lower := pyLower address
  match possibleRegions.find? (fun rn => strContains address_lower rn) with
  | some rn => some (pyCapitalize rn)
  | none =>
    let parts := pySplitOnce address
    if parts.length > 1 then
      let region_part := pyStrip (parts.headI)
      if pyIsDigit region_part ∧ region_part.data.length = 6 then
        -- the guarding `len(parts) > 1` re-check in the source is always true here
        let region_part2 := pyStrip ((pySplitOnce (parts.getD 1 "")).headI)
        some (pyCapitalize region_part2)
      else
        some (pyCapitalize region_part)
    else
      none

/-! ## Parsed record shapes (the dictionaries built by _parse_xml_files) -/

/-- One entry of a record's `programs` list. -/
structure ProgData where
  specialty_code : String
  specialty_name : String
  ugs_code : String
  ugs_name : String
deriving DecidableEq

/-- One parsed organization record.  `_parse_xml_files` always populates every
key, so the `dict.get(key, default)` reads in `_populate_db` always return the
stored value. -/
structure OrgData where
  full_name : String
  short_name : String
  ogrn : String
  inn : String
  address : String
  is_branch : Bool
  parent_ogrn : Option String
  region_name : String
  programs : List ProgData
deriving DecidableEq

/-! ## XML element trees and the streaming parser -/

/-- An lxml element: tag, text content (empty string when the element has no
text) and child elements. -/
inductive Elem where
  | node (tag : String) (text : String) (children : List Elem)

/-- Tag of an element. -/
def Elem.tagOf : Elem → String
  | .node t _ _ => t

/-- Text of an element. -/
def Elem.textOf : Elem → String
  | .node _ x _ => x

/-- Children of an element. -/
def Elem.childrenOf : Elem → List Elem
  | .node _ _ c => c

/-- `element.find(tag)` for the single-level tag paths the loader uses. -/
def findChild (e : Elem) (tag : String) : Option Elem :=
  e.childrenOf.find? (fun c => c.tagOf = tag)

/-- `element.findall(tag)` for single-level tag paths. -/
def findAll (e : Elem) (tag : String) : List Elem :=
  e.childrenOf.filter (fun c => c.tagOf = tag)

/-- `DataLoader._get_text`: `findtext` result stripped, or the default when the
element is missing or has empty text (Python falsiness of `''`/`None`). -/
def getText (e : Elem) (tag : String) (dflt : String) : String :=
  match findChild e tag with
  | none => dflt
  | some c => if c.textOf = "" then dflt else pyStrip c.textOf

/-- The per-program extraction of `_parse_xml_files` (loader.py lines 335-352):
compute the `is_accredited` flag exactly as the source does
(`IsAccredited == '0'`), drop the program when the flag is false, then keep it
only when it carries a specialty code. -/
def parseProgram (p : Elem) : Option ProgData :=
  let is_accredited := getText p "IsAccredited" "1" = "0"
  if ¬ is_accredited then none
  else
    let prog : ProgData :=
      ⟨getText p "ProgrammCode" "", getText p "ProgrammName" "",
        getText p "UGSCode" "", getText p "UGSName" ""⟩
    if prog.specialty_code ≠ "" then some prog else none

/-- Collect a certificate's programs from Supplements → Supplement →
EducationalPrograms → EducationalProgram. -/
def certPrograms (cert : Elem) : List ProgData :=
  match findChild cert "Supplements" with
  | none => []
  | some supps =>
    (findAll supps "Supplement").foldl
      (fun acc supp =>
        match findChild supp "EducationalPrograms" with
        | none => acc
        | some progs => acc ++ (findAll progs "EducationalProgram").filterMap parseProgram)
      []

/-- Extraction of one Certificate element (`_parse_xml_files` main loop):
records without an ActualEducationOrganization child or without an OGRN are
skipped. -/
def parseCertificate (cert : Elem) : Option OrgData :=
  match findChild cert "ActualEducationOrganization" with
  | none => none
  | some org =>
    let is_branch := getText org "IsBranch" "0" = "1"
    let rec0 : OrgData :=
      { full_name := getText org "FullName" ""
        short_name := getText org "ShortName" ""
        ogrn := getText org "OGRN" ""
        inn := getText org "INN" ""
        address := getText org "PostAddress" ""
        is_branch := is_branch
        parent_ogrn := if is_branch then some (getText cert "EduOrgOGRN" "") else none
        region_name := getText org "RegionName" ""
        programs := certPrograms cert }
    if rec0.ogrn = "" then none else some rec0

/-- The record list produced from a sequence of Certificate elements. -/
def parseCertificates (certs : List Elem) : List OrgData :=
  certs.filterMap parseCertificate

/-! ## The five persisted tables (models.py) and the transaction view -/

/-- A row of the `region` table. -/
structure RegionRow where
  id : Nat
  name : String
deriving DecidableEq

/-- A row of the `specialty_group` table. -/
structure GroupRow where
  id : Nat
  code : String
  name : String
deriving DecidableEq

/-- A row of the `specialty` table.  The column `group_id` is declared
`nullable=False` in models.py; it is `Option Nat` here because `_populate_db`
can hand SQLAlchemy a Python `None` for it, which the database rejects at
flush. -/
structure SpecialtyRow where
  id : Nat
  code : String
  name : String
  group_id : Option Nat
deriving DecidableEq

/-- A row of the `educational_organization` table. -/
structure OrgRow where
  id : Nat
  full_name : String
  short_name : String
  ogrn : String
  inn : String
  address : String
  region_id : Option Nat
  parent_id : Option Nat
deriving DecidableEq

/-- A row of the `educational_program` table. -/
structure ProgramRow where
  id : Nat
  organization_id : Nat
  specialty_id : Nat
deriving DecidableEq

/-- The transaction view of the database: the five tables plus the per-table
autoincrement counters that assign primary keys at flush. -/
structure DB where
  regions : List RegionRow
  specialty_groups : List GroupRow
  specialties : List SpecialtyRow
  organizations : List OrgRow
  programs : List ProgramRow
  nextRegionId : Nat
  nextGroupId : Nat
  nextSpecialtyId : Nat
  nextOrgId : Nat
  nextProgramId : Nat
deriving DecidableEq

/-- A database with no rows. -/
def emptyDB : DB :=
  ⟨[], [], [], [], [], 0, 0, 0, 0, 0⟩

/-- The row counts of the five tables, in the order Region, SpecialtyGroup,
Specialty, EducationalOrganization, EducationalProgram. -/
def rowCounts (d : DB) : Nat × Nat × Nat × Nat × Nat :=
  (d.regions.length, d.specialty_groups.length, d.specialties.length,
    d.organizations.length, d.programs.length)

/-- The warnings `_populate_db` emits through the logging side channel. -/
inductive LogWarning where
  | orgWithoutOgrn (full_name : String)
  | parentNotFound (parent_ogrn : String) (ogrn : String)
deriving DecidableEq

/-- The ways a reconciliation run can fail. -/
inductive PopErr where
  /-- `session_scope` raises RuntimeError when no Flask app is supplied. -/
  | noAppContext
  /-- An injected persistence fault at the given operation index. -/
  | dbFault (n : Nat)
  /-- The NOT NULL constraint on `specialty.group_id` fails at autoflush
  because the Specialty defaults captured `group.id` of an unflushed group. -/
  | notNullViolation
deriving DecidableEq

/-- The in-run state of `_populate_db`: the transaction view, the four
memoization caches, the warnings logged so far, the persistence-operation
counter consulted by the fault oracle, and the pending-exception flag.
The organization cache stores row positions because `_populate_db` mutates the
cached organization objects in place; the other caches store primary keys,
which is all the source reads from them. -/
structure St where
  db : DB
  cacheR : List (String × Nat)
  cacheG : List (String × Nat)
  cacheS : List (String × Nat)
  cacheO : List (String × Nat)
  warnings : List LogWarning
  tick : Nat
  errFlag : Option PopErr
deriving DecidableEq

/-- The fault-free oracle. -/
def noFaults : Nat → Bool := fun _ => false

/-- Perform one row-writing persistence operation: consult the fault oracle at
the current operation index, then either raise or apply the write. -/
def tryWrite (faults : Nat → Bool) (st : St) (apply : St → St) : St :=
  if faults st.tick then
    { st with tick := st.tick + 1, errFlag := some (.dbFault st.tick) }
  else
    apply { st with tick := st.tick + 1 }

/-- Python truthiness of an optional string (`None` and `''` are falsy). -/
def optTruthy : Option String → Bool
  | none => false
  | some s => s ≠ ""

/-- Lookup in one of the in-run memoization dictionaries. -/
def cacheLookup (k : String) : List (String × Nat) → Option Nat
  | [] => none
  | (k2, v) :: l => if k = k2 then some v else cacheLookup k l

/-- Position of the first stored organization row carrying the given OGRN:
the `filter_by(ogrn=...).first()` query. -/
def firstIdxOgrn (g : String) : List OrgRow → Option Nat
  | [] => none
  | o :: l =>
    if o.ogrn = g then some 0 else
      match firstIdxOgrn g l with
      | none => none
      | some i => some (i + 1)

/-- `_get_or_create(session, Region, name=rn)` together with the surrounding
`regions_cache` bookkeeping of pass 1: answer the region's primary key, either
from the cache, or from the first matching stored row, or by inserting a new
row. -/
def resolveRegionByName (faults : Nat → Bool) (st : St) (rn : String) :
    Option Nat × St :=
  match cacheLookup rn st.cacheR with
  | some rid => (some rid, st)
  | none =>
    match st.db.regions.find? (fun r => r.name = rn) with
    | some r => (some r.id, { st with cacheR := (rn, r.id) :: st.cacheR })
    | none =>
      let rid := st.db.nextRegionId
      let st2 := tryWrite faults st (fun s =>
        { s with
          db := { s.db with
                  regions := s.db.regions ++ [⟨rid, rn⟩],
                  nextRegionId := rid + 1 },
          cacheR := (rn, rid) :: s.cacheR })
      (some rid, st2)

/-- The region-resolution block of pass 1 (loader.py lines 417-436): prefer the
explicit region name, normalized by strip-then-capitalize; otherwise fall back
to the address heuristic (whose result is used as-is and is falsy-checked). -/
def resolveRegion (faults : Nat → Bool) (st : St) (rec : OrgData) :
    Option Nat × St :=
  if rec.region_name ≠ "" then
    resolveRegionByName faults st (pyCapitalize (pyStrip rec.region_name))
  else
    match extractRegionFromAddress rec.address with
    | some rn2 => if rn2 ≠ "" then resolveRegionByName faults st rn2 else (none, st)
    | none => (none, st)

/-- Replace the parent reference of the organization object at position
`i` (`organization.parent_id = parent_organization.id`). -/
def updateParent (l : List OrgRow) (i : Nat) (pid : Nat) : List OrgRow :=
  match l.get? i with
  | some o => l.set i { o with parent_id := some pid }
  | none => l

/-- One iteration of pass 1 (loader.py lines 404-458): skip records without an
OGRN, reuse cached or stored organizations, otherwise resolve the region,
insert the new organization and flush it. -/
def pass1Step (faults : Nat → Bool) (st : St) (rec : OrgData) : St :=
  if st.errFlag.isSome then st
  else
    let ogrn := rec.ogrn
    if ogrn = "" then
      { st with warnings := st.warnings ++ [.orgWithoutOgrn rec.full_name] }
    else
      match cacheLookup ogrn st.cacheO with
      | some _ => st
      | none =>
        match firstIdxOgrn ogrn st.db.organizations with
        | some idx => { st with cacheO := (ogrn, idx) :: st.cacheO }
        | none =>
          let rs := resolveRegion faults st rec
          let st2 := rs.2
          if st2.errFlag.isSome then st2
          else
            let row : OrgRow :=
              ⟨st2.db.nextOrgId, rec.full_name, rec.short_name, ogrn, rec.inn,
                rec.address, rs.1, none⟩
            tryWrite faults st2 (fun s =>
              { s with
                db := { s.db with
                        organizations := s.db.organizations ++ [row],
                        nextOrgId := s.db.nextOrgId + 1 },
                cacheO := (ogrn, s.db.organizations.length) :: s.cacheO })

/-- The branch-linking block of pass 2 (loader.py lines 479-488): look the
parent up in the cache, falling back to a stored-row query, set the parent
reference or log a warning. -/
def linkParent (st : St) (rec : OrgData) (orgIdx : Nat) : St :=
  if rec.is_branch && optTruthy rec.parent_ogrn then
    let p := rec.parent_ogrn.getD ""
    let parentIdx : Option Nat :=
      match cacheLookup p st.cacheO with
      | some i => some i
      | none => firstIdxOgrn p st.db.organizations
    match parentIdx with
    | some pidx =>
      match st.db.organizations.get? pidx with
      | some parentRow =>
        { st with
          db := { st.db with
                  organizations := updateParent st.db.organizations orgIdx parentRow.id } }
      | none => st
    | none =>
      { st with warnings := st.warnings ++ [.parentNotFound p rec.ogrn] }
  else st

/-- Resolve-or-create the SpecialtyGroup for one program entry (loader.py
lines 498-505): consult the cache, else query by code, else insert with the
record's name as default.  Reports the group id, whether the group was created
by this very call (and is therefore still unflushed), and the new state. -/
def groupResolve (faults : Nat → Bool) (st : St) (prog : ProgData) :
    Nat × Bool × St :=
  match cacheLookup prog.ugs_code st.cacheG with
  | some gid => (gid, false, st)
  | none =>
    match st.db.specialty_groups.find? (fun g => g.code = prog.ugs_code) with
    | some g => (g.id, false, { st with cacheG := (prog.ugs_code, g.id) :: st.cacheG })
    | none =>
      let gid := st.db.nextGroupId
      (gid, true, tryWrite faults st (fun s =>
        { s with
          db := { s.db with
                  specialty_groups :=
                    s.db.specialty_groups ++ [⟨gid, prog.ugs_code, prog.ugs_name⟩],
                  nextGroupId := gid + 1 },
          cacheG := (prog.ugs_code, gid) :: s.cacheG }))

/-- Resolve-or-create the Specialty for one program entry (loader.py lines
507-516): consult the cache, else query by code, else insert with the record's
name and the captured group id as defaults.  The defaults dictionary reads
`group.id` before any flush, so when the group was created in this same
iteration the captured value is Python None and the insert violates the NOT
NULL constraint on specialty.group_id at the next autoflush.  Reports the
specialty id, whether the specialty was created by this very call, and the new
state. -/
def specialtyResolve (faults : Nat → Bool) (st : St) (prog : ProgData)
    (gid : Nat) (gCreatedNow : Bool) : Nat × Bool × St :=
  match cacheLookup prog.specialty_code st.cacheS with
  | some sid => (sid, false, st)
  | none =>
    match st.db.specialties.find? (fun s => s.code = prog.specialty_code) with
    | some srow =>
      (srow.id, false,
        { st with cacheS := (prog.specialty_code, srow.id) :: st.cacheS })
    | none =>
      let gidDefault : Option Nat := if gCreatedNow then none else some gid
      let sid := st.db.nextSpecialtyId
      let stIns := tryWrite faults st (fun s =>
        { s with
          db := { s.db with
                  specialties :=
                    s.db.specialties ++
                      [⟨sid, prog.specialty_code, prog.specialty_name, gidDefault⟩],
                  nextSpecialtyId := sid + 1 },
          cacheS := (prog.specialty_code, sid) :: s.cacheS })
      let stIns2 :=
        if stIns.errFlag.isSome then stIns
        else if gidDefault = none then
          { stIns with errFlag := some .notNullViolation }
        else stIns
      (sid, true, stIns2)

/-- Insert the EducationalProgram association unless the (organization,
specialty) pair already exists (loader.py lines 518-534).  For a specialty
created in this iteration the existence query compares against the unflushed
`specialty.id`, i.e. SQL NULL, which no stored program matches, so the row is
inserted unconditionally. -/
def programInsert (faults : Nat → Bool) (st : St) (orgIdx : Nat) (sid : Nat)
    (sCreatedNow : Bool) : St :=
  let oid := (st.db.organizations.get? orgIdx).elim 0 (fun o => o.id)
  let existing :=
    if sCreatedNow then none
    else st.db.programs.find?
      (fun p => p.organization_id = oid && p.specialty_id = sid)
  match existing with
  | some _ => st
  | none =>
    tryWrite faults st (fun s =>
      { s with
        db := { s.db with
                programs := s.db.programs ++ [⟨s.db.nextProgramId, oid, sid⟩],
                nextProgramId := s.db.nextProgramId + 1 } })

/-- One program iteration of pass 2 (loader.py lines 491-534): skip programs
missing either code, then resolve-or-create the SpecialtyGroup and the
Specialty and insert the program association. -/
def progStep (faults : Nat → Bool) (orgIdx : Nat) (st : St) (prog : ProgData) : St :=
  if st.errFlag.isSome then st
  else if prog.specialty_code = "" || prog.ugs_code = "" then st
  else
    let g := groupResolve faults st prog
    if g.2.2.errFlag.isSome then g.2.2
    else
      let s := specialtyResolve faults g.2.2 prog g.1 g.2.1
      if s.2.2.errFlag.isSome then s.2.2
      else programInsert faults s.2.2 orgIdx s.1 s.2.1

/-- One iteration of pass 2 (loader.py lines 471-534): records whose
organization was not cached in pass 1 are skipped; otherwise link the branch
parent and process the record's programs. -/
def pass2Step (faults : Nat → Bool) (st : St) (rec : OrgData) : St :=
  if st.errFlag.isSome then st
  else if rec.ogrn = "" then st
  else
    match cacheLookup rec.ogrn st.cacheO with
    | none => st
    | some orgIdx =>
      rec.programs.foldl (progStep faults orgIdx) (linkParent st rec orgIdx)

/-- The initial in-run state: fresh caches over the given transaction view. -/
def initSt (d : DB) : St :=
  ⟨d, [], [], [], [], [], 0, none⟩

/-- The body of `_populate_db` inside `session_scope`: pass 1 then pass 2.
The `session.flush()` between the passes (loader.py lines 461-467) writes
nothing — every pass-1 creation was already flushed eagerly at line 453 — so
it cannot fail and its silent-return except branch is unreachable; an
exception raised inside pass 1 itself propagates and skips pass 2. -/
def populateBody (faults : Nat → Bool) (d : DB) (recs : List OrgData) : St :=
  let st1 := recs.foldl (pass1Step faults) (initSt d)
  if st1.errFlag.isSome then st1
  else recs.foldl (pass2Step faults) st1

/-- The outcome of a reconciliation run, as seen by the caller: the committed
database, and the warnings logged along the way. -/
inductive PopResult where
  | ok (d : DB) (warnings : List LogWarning)
  | err (e : PopErr) (d : DB) (warnings : List LogWarning)
deriving DecidableEq

/-- The committed database after a run. -/
def PopResult.resultDb : PopResult → DB
  | .ok d _ => d
  | .err _ d _ => d

/-- `DataLoader._populate_db` with `session_scope` around it: an empty record
list returns before any session is opened; a missing app context raises
RuntimeError; otherwise the two passes run and the single commit happens at
the very end, any exception having rolled the whole transaction back before
being re-raised. -/
def populateDb (d : DB) (recs : List OrgData) (hasApp : Bool)
    (faults : Nat → Bool) : PopResult :=
  if recs = [] then .ok d []
  else if ¬ hasApp then .err .noAppContext d []
  else
    let stF := populateBody faults d recs
    match stF.errFlag with
    | some e => .err e d stF.warnings
    | none =>
      if faults stF.tick then .err (.dbFault stF.tick) d stF.warnings
      else .ok stF.db stF.warnings

/-! ## Concrete inputs used to settle individual claims -/

/-- A parsed record with the given full name and OGRN and nothing else. -/
def plainRec (nm og : String) : OrgData :=
  ⟨nm, "", og, "", "", false, none, "", []⟩

/-- A parsed branch record with the given full name, OGRN and parent OGRN. -/
def branchRec (nm og pog : String) : OrgData :=
  ⟨nm, "", og, "", "", true, some pog, "", []⟩

/-- A certificate carrying one program explicitly marked NOT accredited
(IsAccredited = 0) and one explicitly marked accredited (IsAccredited = 1). -/
def certC1 : Elem :=
  .node "Certificate" ""
    [ .node "ActualEducationOrganization" ""
        [ .node "FullName" "Test University" []
        , .node "OGRN" "1027700000000" []
        , .node "IsBranch" "0" [] ]
    , .node "Supplements" ""
        [ .node "Supplement" ""
            [ .node "EducationalPrograms" ""
                [ .node "EducationalProgram" ""
                    [ .node "IsAccredited" "0" []
                    , .node "ProgrammCode" "09.03.01" []
                    , .node "ProgrammName" "Revoked programme" []
                    , .node "UGSCode" "09.00.00" []
                    , .node "UGSName" "Informatics" [] ]
                , .node "EducationalProgram" ""
                    [ .node "IsAccredited" "1" []
                    , .node "ProgrammCode" "10.03.01" []
                    , .node "ProgrammName" "Valid programme" []
                    , .node "UGSCode" "10.00.00" []
                    , .node "UGSName" "Security" [] ] ] ] ] ]

/-- A record whose single program carries a fresh specialty code and a fresh
group code (the C9 failing input). -/
def recC9 : OrgData :=
  ⟨"Univ", "U", "1027700000000", "", "", false, none, "",
    [⟨"09.03.01", "Informatics", "09.00.00", "CS"⟩]⟩

/-- A starting database that already contains the specialty group referenced by
the C3 scenario, so that both records' programs insert cleanly. -/
def dbC3 : DB :=
  { emptyDB with specialty_groups := [⟨1, "09.00.00", "CS"⟩], nextGroupId := 2 }

/-- First record of the C3 scenario. -/
def recC3a : OrgData :=
  ⟨"U1", "", "111", "", "", false, none, "", [⟨"09.03.01", "P1", "09.00.00", "CS"⟩]⟩

/-- Second (last) record of the C3 scenario. -/
def recC3b : OrgData :=
  ⟨"U2", "", "222", "", "", false, none, "", [⟨"10.05.01", "P2", "09.00.00", "CS"⟩]⟩

/-- A fault oracle that fails the sixth persistence operation of the C3
scenario: the program insertion for the last record of pass 2. -/
def faultC3 : Nat → Bool := fun n => n == 5

/-- A database holding one organization (OGRN 200, no parent) from before the
run (the C4 scenario). -/
def d0C4 : DB :=
  { emptyDB with
    organizations := [⟨7, "Old head", "", "200", "", "", none, none⟩],
    nextOrgId := 8 }

/-- A fresh head organization whose OGRN the pre-existing row will name as
parent (the C4 scenario). -/
def recC4a : OrgData := plainRec "New head" "100"

/-- A record matching the pre-existing OGRN 200 and declaring itself a branch
of OGRN 100 (the C4 scenario). -/
def recC4b : OrgData := branchRec "Old head" "200" "100"

/-- A record carrying an explicit multi-word region name with surrounding
whitespace (the C7 scenario). -/
def recC7 : OrgData :=
  ⟨"Univ", "", "77", "", "", false, none, "  AB CD  ", []⟩

/-- A one-record input whose reconciliation succeeds from the empty store (the
C2 witness scenario). -/
def recC2w : OrgData := plainRec "W" "42"

/-- The database produced by running the loader on `[recC2w]` from scratch:
one organization row and nothing else. -/
def d1C2 : DB :=
  ⟨[], [], [], [⟨0, "W", "", "42", "", "", none, none⟩], [], 0, 0, 0, 1, 0⟩

/-! ## Predicates used by the reconciliation theorems -/

/-- Two organization rows agree on every column except `parent_id`. -/
def orgCoreEq (a b : OrgRow) : Prop :=
  a.id = b.id ∧ a.full_name = b.full_name ∧ a.short_name = b.short_name ∧
    a.ogrn = b.ogrn ∧ a.inn = b.inn ∧ a.address = b.address ∧
    a.region_id = b.region_id

/-- Every row of the old organization table is still at its position in the
new one, unchanged except possibly in `parent_id`. -/
def orgsEvolve (old cur : List OrgRow) : Prop :=
  ∀ (i : Nat) (oldRow : OrgRow), old[i]? = some oldRow →
    ∃ newRow, cur[i]? = some newRow ∧ orgCoreEq oldRow newRow

/-- The region cache only holds names of stored region rows together with
their primary keys. -/
def regionCacheOk (st : St) : Prop :=
  ∀ pr ∈ st.cacheR, ∃ r ∈ st.db.regions, r.id = pr.2 ∧ r.name = pr.1

/-- The organization cache maps each OGRN to the position of the first stored
row carrying it. -/
def cacheOok (c : List (String × Nat)) (l : List OrgRow) : Prop :=
  ∀ pr ∈ c, firstIdxOgrn pr.1 l = some pr.2

/-- The specialty cache maps each code to the primary key of the first stored
specialty row carrying it. -/
def cacheSok (c : List (String × Nat)) (l : List SpecialtyRow) : Prop :=
  ∀ pr ∈ c, ∃ srow, l.find? (fun s => s.code = pr.1) = some srow ∧ srow.id = pr.2

/-- The group cache only holds codes of stored group rows. -/
def cacheGok (c : List (String × Nat)) (l : List GroupRow) : Prop :=
  ∀ pr ∈ c, ∃ grow ∈ l, grow.code = pr.1

/-- Some stored organization row carries the given OGRN. -/
def hasOgrn (l : List OrgRow) (g : String) : Prop :=
  ∃ o ∈ l, o.ogrn = g

/-- What a completed run guarantees for one program entry of a record with
OGRN `g`: its group code is stored, its specialty code resolves to a first
matching stored row, and the (organization, specialty) pair is stored. -/
def progFact (d1 : DB) (g : String) (prog : ProgData) : Prop :=
  prog.specialty_code ≠ "" → prog.ugs_code ≠ "" →
    (∃ grow ∈ d1.specialty_groups, grow.code = prog.ugs_code) ∧
    ∃ (srow : SpecialtyRow) (oi : Nat) (orow : OrgRow),
      d1.specialties.find? (fun s => s.code = prog.specialty_code) = some srow ∧
      firstIdxOgrn g d1.organizations = some oi ∧
      d1.organizations[oi]? = some orow ∧
      ∃ p ∈ d1.programs, p.organization_id = orow.id ∧ p.specialty_id = srow.id

/-- What a completed run guarantees for one record: its organization is stored
and each of its complete program entries is fully reconciled. -/
def recFact (d1 : DB) (rec : OrgData) : Prop :=
  rec.ogrn ≠ "" →
    hasOgrn d1.organizations rec.ogrn ∧ ∀ prog ∈ rec.programs, progFact d1 rec.ogrn prog

/-- The second run's transaction view agrees with the first run's result on
every table and counter, organizations only up to `parent_id`. -/
def sameButOrgs (d1 d2 : DB) : Prop :=
  d2.regions = d1.regions ∧ d2.specialty_groups = d1.specialty_groups ∧
    d2.specialties = d1.specialties ∧ d2.programs = d1.programs ∧
    d2.nextRegionId = d1.nextRegionId ∧ d2.nextGroupId = d1.nextGroupId ∧
    d2.nextSpecialtyId = d1.nextSpecialtyId ∧ d2.nextOrgId = d1.nextOrgId ∧
    d2.nextProgramId = d1.nextProgramId ∧
    d2.organizations.length = d1.organizations.length ∧
    orgsEvolve d1.organizations d2.organizations

/-! ## Basic lemmas about the model's primitives -/

theorem noFaults_app (n : Nat) : noFaults n = false := rfl

theorem tryWrite_noFaults (st : St) (f : St → St) :
    tryWrite noFaults st f = f { st with tick := st.tick + 1 } := rfl

theorem cacheLookup_nil (k : String) : cacheLookup k [] = none := rfl

theorem cacheLookup_cons (k k2 : String) (v : Nat) (l : List (String × Nat)) :
    cacheLookup k ((k2, v) :: l) = if k = k2 then some v else cacheLookup k l := rfl

theorem cacheLookup_mem : ∀ {l : List (String × Nat)} {k : String} {v : Nat},
    cacheLookup k l = some v → (k, v) ∈ l
  | [], _, _, h => by simp [cacheLookup] at h
  | (k2, v2) :: t, k, v, h => by
    rw [cacheLookup_cons] at h
    split at h
    · next hk => injection h with h2; subst hk; subst h2; exact List.mem_cons_self _ _
    · exact List.mem_cons_of_mem _ (cacheLookup_mem h)

theorem cacheLookup_cons_isSome {l : List (String × Nat)} {k : String} {v : Nat}
    (k2 : String) (v2 : Nat) (h : cacheLookup k l = some v) :
    ∃ w, cacheLookup k ((k2, v2) :: l) = some w := by
  rw [cacheLookup_cons]
  by_cases hk : k = k2
  · exact ⟨v2, if_pos hk⟩
  · exact ⟨v, by rw [if_neg hk]; exact h⟩

theorem firstIdxOgrn_cons (g : String) (o : OrgRow) (l : List OrgRow) :
    firstIdxOgrn g (o :: l) =
      if o.ogrn = g then some 0 else
        match firstIdxOgrn g l with
        | none => none
        | some i => some (i + 1) := rfl

theorem firstIdxOgrn_append_some {g : String} :
    ∀ {l : List OrgRow} {i : Nat} (l2 : List OrgRow),
      firstIdxOgrn g l = some i → firstIdxOgrn g (l ++ l2) = some i
  | [], _, _, h => by simp [firstIdxOgrn] at h
  | o :: t, i, l2, h => by
    rw [firstIdxOgrn_cons] at h
    rw [List.cons_append, firstIdxOgrn_cons]
    split at h
    · next ho => rw [if_pos ho]; exact h
    · next ho =>
      rw [if_neg ho]
      cases hi : firstIdxOgrn g t with
      | none => rw [hi] at h; exact absurd h (by simp)
      | some j =>
        rw [hi] at h
        rw [firstIdxOgrn_append_some l2 hi]
        exact h

theorem firstIdxOgrn_none_append {g : String} {row : OrgRow} :
    ∀ {l : List OrgRow}, firstIdxOgrn g l = none → row.ogrn = g →
      firstIdxOgrn g (l ++ [row]) = some l.length
  | [], _, hr => by simp [firstIdxOgrn, hr]
  | o :: t, h, hr => by
    rw [firstIdxOgrn_cons] at h
    rw [List.cons_append, firstIdxOgrn_cons]
    split at h
    · simp at h
    · next ho =>
      rw [if_neg ho]
      cases hi : firstIdxOgrn g t with
      | none => rw [firstIdxOgrn_none_append hi hr]; simp
      | some j => rw [hi] at h; exact absurd h (by simp)

theorem firstIdxOgrn_get {g : String} :
    ∀ {l : List OrgRow} {i : Nat}, firstIdxOgrn g l = some i →
      ∃ row, l[i]? = some row ∧ row.ogrn = g
  | [], _, h => by simp [firstIdxOgrn] at h
  | o :: t, i, h => by
    rw [firstIdxOgrn_cons] at h
    split at h
    · next ho => injection h with h2; subst h2; exact ⟨o, by simp, ho⟩
    · cases hi : firstIdxOgrn g t with
      | none => rw [hi] at h; exact absurd h (by simp)
      | some j =>
        rw [hi] at h
        injection h with h2
        obtain ⟨row, hrow, hg⟩ := firstIdxOgrn_get hi
        refine ⟨row, ?_, hg⟩
        subst h2
        simpa using hrow

theorem firstIdxOgrn_isSome_of_mem {g : String} :
    ∀ {l : List OrgRow} {o : OrgRow}, o ∈ l → o.ogrn = g →
      ∃ i, firstIdxOgrn g l = some i
  | [], _, h, _ => absurd h (List.not_mem_nil _)
  | o2 :: t, o, h, hg => by
    rw [firstIdxOgrn_cons]
    by_cases ho : o2.ogrn = g
    · exact ⟨0, if_pos ho⟩
    · rcases List.mem_cons.mp h with h1 | h1
      · subst h1; exact absurd hg ho
      · obtain ⟨i, hi⟩ := firstIdxOgrn_isSome_of_mem h1 hg
        exact ⟨i + 1, by rw [if_neg ho, hi]⟩

theorem firstIdxOgrn_congr {g : String} :
    ∀ {l1 l2 : List OrgRow}, l1.length = l2.length →
      (∀ (i : Nat) (r1 r2 : OrgRow), l1[i]? = some r1 → l2[i]? = some r2 →
        r1.ogrn = r2.ogrn) →
      firstIdxOgrn g l1 = firstIdxOgrn g l2
  | [], [], _, _ => rfl
  | [], _ :: _, h, _ => by simp at h
  | _ :: _, [], h, _ => by simp at h
  | r1 :: t1, r2 :: t2, h, hpt => by
    have hr : r1.ogrn = r2.ogrn := hpt 0 r1 r2 (by simp) (by simp)
    have ht : firstIdxOgrn g t1 = firstIdxOgrn g t2 :=
      firstIdxOgrn_congr (by simpa using h)
        (fun i a b ha hb => hpt (i + 1) a b (by simpa using ha) (by simpa using hb))
    rw [firstIdxOgrn_cons, firstIdxOgrn_cons, hr, ht]

theorem find?_append_some {α : Type} {p : α → Bool} :
    ∀ {l : List α} {a : α} (l2 : List α), l.find? p = some a →
      (l ++ l2).find? p = some a
  | [], _, _, h => by simp at h
  | b :: t, a, l2, h => by
    rw [List.cons_append]
    by_cases hb : p b
    · rw [List.find?_cons_of_pos _ hb] at h ⊢; exact h
    · rw [List.find?_cons_of_neg _ hb] at h ⊢
      exact find?_append_some l2 h

theorem find?_none_append {α : Type} {p : α → Bool} {a : α} :
    ∀ {l : List α}, l.find? p = none → p a = true →
      (l ++ [a]).find? p = some a
  | [], _, ha => by simpa using ha
  | b :: t, h, ha => by
    rw [List.cons_append]
    by_cases hb : p b
    · rw [List.find?_cons_of_pos _ hb] at h; simp at h
    · rw [List.find?_cons_of_neg _ hb] at h ⊢
      exact find?_none_append h ha

theorem find?_isSome_of_mem {α : Type} {p : α → Bool} :
    ∀ {l : List α} {a : α}, a ∈ l → p a = true → ∃ b, l.find? p = some b
  | [], _, h, _ => absurd h (List.not_mem_nil _)
  | b :: t, a, h, ha => by
    by_cases hb : p b
    · exact ⟨b, List.find?_cons_of_pos _ hb⟩
    · rcases List.mem_cons.mp h with h1 | h1
      · subst h1; exact absurd ha (by simpa using hb)
      · obtain ⟨c, hc⟩ := find?_isSome_of_mem h1 ha
        exact ⟨c, by rw [List.find?_cons_of_neg _ hb]; exact hc⟩

theorem orgCoreEq_refl (a : OrgRow) : orgCoreEq a a :=
  ⟨rfl, rfl, rfl, rfl, rfl, rfl, rfl⟩

theorem orgCoreEq_trans {a b c : OrgRow} (h1 : orgCoreEq a b) (h2 : orgCoreEq b c) :
    orgCoreEq a c := by
  obtain ⟨e1, e2, e3, e4, e5, e6, e7⟩ := h1
  obtain ⟨f1, f2, f3, f4, f5, f6, f7⟩ := h2
  exact ⟨e1.trans f1, e2.trans f2, e3.trans f3, e4.trans f4, e5.trans f5,
    e6.trans f6, e7.trans f7⟩

theorem orgsEvolve_refl (l : List OrgRow) : orgsEvolve l l :=
  fun _ row h => ⟨row, h, orgCoreEq_refl row⟩

theorem orgsEvolve_trans {l1 l2 l3 : List OrgRow}
    (h1 : orgsEvolve l1 l2) (h2 : orgsEvolve l2 l3) : orgsEvolve l1 l3 := by
  intro i row h
  obtain ⟨r2, hr2, hc2⟩ := h1 i row h
  obtain ⟨r3, hr3, hc3⟩ := h2 i r2 hr2
  exact ⟨r3, hr3, orgCoreEq_trans hc2 hc3⟩

theorem orgsEvolve_append (l l2 : List OrgRow) : orgsEvolve l (l ++ l2) := by
  intro i row h
  have hi : i < l.length := by
    by_contra hcon
    rw [List.getElem?_eq_none (Nat.le_of_not_lt hcon)] at h
    exact absurd h (by simp)
  refine ⟨row, ?_, orgCoreEq_refl row⟩
  rw [List.getElem?_append, if_pos hi]
  exact h

theorem updateParent_length (l : List OrgRow) (i : Nat) (pid : Nat) :
    (updateParent l i pid).length = l.length := by
  unfold updateParent
  cases l.get? i with
  | none => rfl
  | some o => simp

theorem updateParent_evolve (l : List OrgRow) (i : Nat) (pid : Nat) :
    orgsEvolve l (updateParent l i pid) := by
  unfold updateParent
  cases ho : l.get? i with
  | none => exact orgsEvolve_refl l
  | some o =>
    intro j row hj
    by_cases hij : i = j
    · subst hij
      rw [List.get?_eq_getElem?, hj] at ho
      injection ho with ho2
      subst ho2
      refine ⟨{ row with parent_id := some pid }, ?_, ?_⟩
      · have hi : i < l.length := by
          by_contra hcon
          rw [List.getElem?_eq_none (Nat.le_of_not_lt hcon)] at hj
          exact absurd hj (by simp)
        rw [List.getElem?_set, if_pos rfl, if_pos hi]
      · exact ⟨rfl, rfl, rfl, rfl, rfl, rfl, rfl⟩
    · refine ⟨row, ?_, orgCoreEq_refl row⟩
      rw [List.getElem?_set, if_neg hij]
      exact hj

theorem orgsEvolve_firstIdx {l1 l2 : List OrgRow} {g : String}
    (h : orgsEvolve l1 l2) (hlen : l1.length = l2.length) :
    firstIdxOgrn g l1 = firstIdxOgrn g l2 := by
  refine firstIdxOgrn_congr hlen ?_
  intro i r1 r2 h1 h2
  obtain ⟨r2b, hr2b, hc⟩ := h i r1 h1
  rw [h2] at hr2b
  injection hr2b with h3
  subst h3
  exact hc.2.2.2.1

theorem breakAtComma_eq_none : ∀ {l : List Char}, (',' ∈ l → False) →
    breakAtComma l = none
  | [], _ => rfl
  | c :: cs, h => by
    have hc : ¬ c = ',' := fun hc => h (hc ▸ List.mem_cons_self c cs)
    show (if c = ',' then some ([], cs)
        else (breakAtComma cs).map (fun p => (c :: p.1, p.2))) = none
    rw [if_neg hc, breakAtComma_eq_none (fun hm => h (List.mem_cons_of_mem c hm))]
    rfl

/-! ## The claims -/

/-- C1: the claim says a program element explicitly marked not accredited is
excluded from the parsed record.  The code computes
`is_accredited = (IsAccredited == '0')` and then skips programs with
`not is_accredited`, so it keeps exactly the programs explicitly marked NOT
accredited and drops the accredited ones: on `certC1` the IsAccredited = 0
program is the only one kept.  The inline comment in the source states the
opposite intent, so this is a defect of the code, not of the claim. -/
theorem c1_not_accredited_included :
    (parseCertificates [certC1]).map
        (fun r => r.programs.map (fun p => (p.specialty_code, p.specialty_name))) =
      [[("09.03.01", "Revoked programme")]] := by decide

/-- C9: the claim says every Specialty row created during reconciliation
carries a valid non-null reference to its resolved group.  On the first record
whose program carries a fresh group code and a fresh specialty code, the
Specialty defaults capture the unflushed group's id (Python None), the NOT
NULL constraint on specialty.group_id fails at the next autoflush, and the
whole run aborts with a rollback: the code cannot create a specialty together
with its group at all, contradicting the claim and the declared data model. -/
theorem c9_specialty_group_fk_violation :
    populateDb emptyDB [recC9] true noFaults = .err .notNullViolation emptyDB [] := by
  decide

/-- C10: reconciling an empty record list returns successfully before any
session is opened, even without an app context; the no-context RuntimeError is
raised only when there is at least one record. -/
theorem c10_empty_input_no_session (d : DB) (hasApp : Bool) (faults : Nat → Bool)
    (recs : List OrgData) :
    populateDb d [] hasApp faults = .ok d [] ∧
      (recs ≠ [] → populateDb d recs false faults = .err .noAppContext d []) := by
  constructor
  · rfl
  · intro h
    unfold populateDb
    rw [if_neg h]
    simp

/-- Closed instance of the C10 theorem at a concrete record list. -/
theorem c10_witness :
    populateDb emptyDB [recC2w] false noFaults = .err .noAppContext emptyDB [] :=
  (c10_empty_input_no_session emptyDB false noFaults [recC2w]).2 (by simp)

/-- C8: the address-based region fallback maps the Podolsk address to the
region name "Московская область" (which contains itself), and maps every
address containing none of the recognizable region substrings and no comma to
no region at all. -/
theorem c8_region_fallback :
    (extractRegionFromAddress "123456, Московская область, г. Подольск" =
        some "Московская область" ∧
      strContains "Московская область" "Московская область" = true) ∧
    ∀ addr : String,
      (∀ rn ∈ possibleRegions, strContains (pyLower addr) rn = false) →
      (',' ∈ addr.data → False) →
      extractRegionFromAddress addr = none := by
  refine ⟨⟨by decide, by decide⟩, ?_⟩
  intro addr h1 h2
  unfold extractRegionFromAddress
  have hf : possibleRegions.find? (fun rn => strContains (pyLower addr) rn) = none :=
    List.find?_eq_none.mpr (fun x hx => by rw [h1 x hx]; simp)
  have hb : breakAtComma addr.data = none := breakAtComma_eq_none h2
  simp [hf, pySplitOnce, hb]

/-- Closed instance of the C8 theorem: an address with no recognizable region
and no comma resolves to no region. -/
theorem c8_witness : extractRegionFromAddress "abc" = none :=
  (c8_region_fallback).2 "abc" (by decide) (by decide)

/-- C7: counterexample to the claim as stated.  The record carries the
explicit region name "  AB CD  "; pass 1 creates the Region row named
"Ab cd" (strip then Python capitalize), while the trimmed, title-cased name
the claim prescribes is "Ab Cd". -/
theorem c7_region_name_not_titlecased :
    (populateDb emptyDB [recC7] true noFaults).resultDb.regions.map
        (fun r => r.name) = ["Ab cd"] ∧
      specTitleCase (pyStrip recC7.region_name) = "Ab Cd" ∧
      ("Ab cd" : String) ≠ "Ab Cd" := by decide

/-- C7 (amended): when pass 1 creates a new organization from a record with an
explicit non-empty region name, the Region row resolved or created for it has
as its name the explicit field trimmed and capitalized (first character
upper-cased, the rest lower-cased) — not title-cased. -/
theorem c7_region_name_capitalized (st : St) (rec : OrgData)
    (hc : regionCacheOk st) (hrn : rec.region_name ≠ "") :
    ∃ r ∈ (resolveRegion noFaults st rec).2.db.regions,
      (resolveRegion noFaults st rec).1 = some r.id ∧
      r.name = pyCapitalize (pyStrip rec.region_name) := by
  unfold resolveRegion
  rw [if_pos hrn]
  unfold resolveRegionByName
  cases hcl : cacheLookup (pyCapitalize (pyStrip rec.region_name)) st.cacheR with
  | some rid =>
    obtain ⟨r, hrmem, hrid, hrname⟩ :=
      hc (pyCapitalize (pyStrip rec.region_name), rid) (cacheLookup_mem hcl)
    exact ⟨r, hrmem, by simp [hrid], hrname⟩
  | none =>
    cases hfnd : st.db.regions.find?
        (fun r => r.name = pyCapitalize (pyStrip rec.region_name)) with
    | some r =>
      have hname : r.name = pyCapitalize (pyStrip rec.region_name) := by
        simpa using List.find?_some hfnd
      exact ⟨r, List.mem_of_find?_eq_some hfnd, rfl, hname⟩
    | none =>
      dsimp only
      rw [tryWrite_noFaults]
      exact ⟨⟨st.db.nextRegionId, pyCapitalize (pyStrip rec.region_name)⟩,
        by simp, rfl, rfl⟩

/-- Closed instance of the amended C7 theorem on the empty state. -/
theorem c7_witness :
    ∃ r ∈ (resolveRegion noFaults (initSt emptyDB) recC7).2.db.regions,
      (resolveRegion noFaults (initSt emptyDB) recC7).1 = some r.id ∧
      r.name = pyCapitalize (pyStrip recC7.region_name) :=
  c7_region_name_capitalized (initSt emptyDB) recC7
    (fun pr hpr => absurd hpr (by simp [initSt])) (by decide)

/-- C4: counterexample to the claim as stated.  Storage starts with one
organization (OGRN 200, parent_id null); the input matches it by OGRN and
declares it a branch of the freshly created OGRN 100.  After the run the
pre-existing row's parent_id has changed from null to the new head's id. -/
theorem c4_existing_row_parent_mutated :
    d0C4.organizations.map (fun o => (o.ogrn, o.parent_id)) = [("200", none)] ∧
      recC4b.ogrn = "200" ∧
      (populateDb d0C4 [recC4a, recC4b] true noFaults).resultDb.organizations.map
        (fun o => (o.ogrn, o.parent_id)) = [("200", some 8), ("100", none)] := by
  decide

/-- C3: whenever a persistence error is raised during a run (any injected
fault, or the loader's own constraint violation), the committed database
afterwards is exactly the database from before the run — the whole transaction
is rolled back — and the failure is re-raised to the caller as the run's
error outcome; when the run succeeds, the committed database is exactly the
transaction view at the end of pass 2, i.e. all work is committed by the one
commit at the very end. -/
theorem c3_rollback_and_single_commit (d : DB) (recs : List OrgData)
    (hasApp : Bool) (faults : Nat → Bool) :
    (∀ e d2 ws, populateDb d recs hasApp faults = .err e d2 ws → d2 = d) ∧
    (∀ d2 ws, populateDb d recs hasApp faults = .ok d2 ws →
      d2 = (populateBody faults d recs).db) ∧
    (∀ e, recs ≠ [] → hasApp = true →
      (populateBody faults d recs).errFlag = some e →
      populateDb d recs hasApp faults =
        .err e d (populateBody faults d recs).warnings) := by
  by_cases hrecs : recs = []
  · subst hrecs
    refine ⟨?_, ?_, ?_⟩
    · intro e d2 ws h
      simp [populateDb] at h
    · intro d2 ws h
      have h2 : PopResult.ok d ([] : List LogWarning) = .ok d2 ws := by
        simpa [populateDb] using h
      injection h2 with h3 h4
      rw [← h3]
      rfl
    · intro e h
      exact absurd rfl h
  · by_cases happ : hasApp = true
    · subst happ
      refine ⟨?_, ?_, ?_⟩
      · intro e d2 ws h
        rw [populateDb, if_neg hrecs] at h
        simp only [not_true, if_neg, ite_false] at h
        cases hE : (populateBody faults d recs).errFlag with
        | some e2 => rw [hE] at h; cases h; rfl
        | none =>
          rw [hE] at h
          by_cases hfc : faults (populateBody faults d recs).tick
          · rw [if_pos hfc] at h; cases h; rfl
          · rw [if_neg hfc] at h; cases h
      · intro d2 ws h
        rw [populateDb, if_neg hrecs] at h
        simp only [not_true, if_neg, ite_false] at h
        cases hE : (populateBody faults d recs).errFlag with
        | some e2 => rw [hE] at h; cases h
        | none =>
          rw [hE] at h
          by_cases hfc : faults (populateBody faults d recs).tick
          · rw [if_pos hfc] at h; cases h
          · rw [if_neg hfc] at h; cases h; rfl
      · intro e _ _ hE
        rw [populateDb, if_neg hrecs]
        simp only [not_true, if_neg, ite_false]
        rw [hE]
    · have hfalse : hasApp = false := by
        cases hasApp
        · rfl
        · exact absurd rfl happ
      subst hfalse
      refine ⟨?_, ?_, ?_⟩
      · intro e d2 ws h
        rw [populateDb, if_neg hrecs] at h
        simp only [Bool.false_eq_true, not_false_eq_true, if_pos] at h
        cases h
        rfl
      · intro d2 ws h
        rw [populateDb, if_neg hrecs] at h
        simp only [Bool.false_eq_true, not_false_eq_true, if_pos] at h
        cases h
      · intro e _ habs
        exact absurd habs (by simp)

/-- Closed instance of the C3 theorem: with the fault oracle failing the
program insertion for the last record of pass 2, the run reports the fault and
the committed database equals the pre-run database, although two
organizations, two specialties and one program had been written in the
transaction. -/
theorem c3_witness :
    populateDb dbC3 [recC3a, recC3b] true faultC3 =
      .err (.dbFault 5) dbC3 (populateBody faultC3 dbC3 [recC3a, recC3b]).warnings ∧
    (populateBody faultC3 dbC3 [recC3a, recC3b]).db.organizations.length = 2 := by
  constructor
  · exact (c3_rollback_and_single_commit dbC3 [recC3a, recC3b] true faultC3).2.2
      (.dbFault 5) (by simp) rfl (by decide)
  · decide

/-- C6: a record declaring itself a branch of an OGRN that matches no
organization in the cache or in storage still reconciles successfully, its
organization row keeps a null parent_id, and the parent-not-found warning is
logged. -/
theorem c6_unresolvable_parent_warns (nm c p : String)
    (hc : c ≠ "") (hp : p ≠ "") (hpc : p ≠ c) :
    ∃ row,
      populateDb emptyDB [branchRec nm c p] true noFaults =
        .ok ⟨[], [], [], [row], [], 0, 0, 0, 1, 0⟩ [LogWarning.parentNotFound p c] ∧
      row.ogrn = c ∧ row.parent_id = none := by
  have hcp : ¬ (c = p) := fun h => hpc h.symm
  have hext : extractRegionFromAddress "" = none := by decide
  refine ⟨⟨0, nm, "", c, "", "", none, none⟩, ?_, rfl, rfl⟩
  simp [populateDb, populateBody, pass1Step, pass2Step, linkParent, initSt,
    branchRec, emptyDB, tryWrite_noFaults, cacheLookup, firstIdxOgrn,
    resolveRegion, resolveRegionByName, optTruthy, noFaults, hext, hc, hp, hpc, hcp]

/-- Closed instance of the C6 theorem. -/
theorem c6_witness :
    ∃ row,
      populateDb emptyDB [branchRec "C" "300" "999"] true noFaults =
        .ok ⟨[], [], [], [row], [], 0, 0, 0, 1, 0⟩
          [LogWarning.parentNotFound "999" "300"] ∧
      row.ogrn = "300" ∧ row.parent_id = none :=
  c6_unresolvable_parent_warns "C" "300" "999" (by decide) (by decide) (by decide)

/-- C5: for an input consisting of head organization A (no parent) and record
B declaring itself a branch with A's OGRN as parent, reconciliation succeeds
and leaves B's row with parent_id equal to A's row id. -/
theorem c5_branch_parent_resolved (nmA nmB a b : String)
    (ha : a ≠ "") (hb : b ≠ "") (hab : a ≠ b) :
    ∃ d2 rowA rowB,
      populateDb emptyDB [plainRec nmA a, branchRec nmB b a] true noFaults =
        .ok d2 [] ∧
      d2.organizations.find? (fun o => o.ogrn = a) = some rowA ∧
      d2.organizations.find? (fun o => o.ogrn = b) = some rowB ∧
      rowB.parent_id = some rowA.id := by
  have hba : ¬ (b = a) := fun h => hab h.symm
  have hext : extractRegionFromAddress "" = none := by decide
  refine ⟨⟨[], [], [], [⟨0, nmA, "", a, "", "", none, none⟩,
      ⟨1, nmB, "", b, "", "", none, some 0⟩], [], 0, 0, 0, 2, 0⟩,
    ⟨0, nmA, "", a, "", "", none, none⟩,
    ⟨1, nmB, "", b, "", "", none, some 0⟩, ?_, ?_, ?_, rfl⟩
  · simp [populateDb, populateBody, pass1Step, pass2Step, linkParent, progStep,
      initSt, plainRec, branchRec, emptyDB, tryWrite_noFaults, cacheLookup,
      firstIdxOgrn, updateParent, List.get?, resolveRegion, resolveRegionByName,
      optTruthy, noFaults, hext, ha, hb, hab, hba]
  · simp [List.find?]
  · simp [List.find?, hab, hba]

/-- Closed instance of the C5 theorem. -/
theorem c5_witness :
    ∃ d2 rowA rowB,
      populateDb emptyDB [plainRec "Head" "100", branchRec "Branch" "200" "100"]
          true noFaults = .ok d2 [] ∧
      d2.organizations.find? (fun o => o.ogrn = "100") = some rowA ∧
      d2.organizations.find? (fun o => o.ogrn = "200") = some rowB ∧
      rowB.parent_id = some rowA.id :=
  c5_branch_parent_resolved "Head" "Branch" "100" "200"
    (by decide) (by decide) (by decide)

theorem resolveRegionByName_orgs (f : Nat → Bool) (st : St) (rn : String) :
    (resolveRegionByName f st rn).2.db.organizations = st.db.organizations := by
  unfold resolveRegionByName tryWrite
  split
  · rfl
  · split
    · rfl
    · dsimp only
      split
      · rfl
      · rfl

theorem resolveRegion_orgs (f : Nat → Bool) (st : St) (rec : OrgData) :
    (resolveRegion f st rec).2.db.organizations = st.db.organizations := by
  unfold resolveRegion
  split
  · exact resolveRegionByName_orgs f st _
  · split
    · split
      · exact resolveRegionByName_orgs f st _
      · rfl
    · rfl

theorem pass1Step_orgsEvolve (f : Nat → Bool) (st : St) (rec : OrgData) :
    orgsEvolve st.db.organizations (pass1Step f st rec).db.organizations := by
  unfold pass1Step
  split
  · exact orgsEvolve_refl _
  · dsimp only
    split
    · exact orgsEvolve_refl _
    · split
      · exact orgsEvolve_refl _
      · split
        · exact orgsEvolve_refl _
        · split
          · rw [resolveRegion_orgs]
            exact orgsEvolve_refl _
          · unfold tryWrite
            split
            · rw [resolveRegion_orgs]
              exact orgsEvolve_refl _
            · dsimp only
              rw [resolveRegion_orgs]
              exact orgsEvolve_append _ _

theorem groupResolve_frame (f : Nat → Bool) (st : St) (prog : ProgData) :
    (groupResolve f st prog).2.2.db.organizations = st.db.organizations ∧
    (groupResolve f st prog).2.2.db.specialties = st.db.specialties ∧
    (groupResolve f st prog).2.2.db.programs = st.db.programs ∧
    (groupResolve f st prog).2.2.db.regions = st.db.regions ∧
    (groupResolve f st prog).2.2.cacheO = st.cacheO ∧
    (groupResolve f st prog).2.2.cacheS = st.cacheS ∧
    (groupResolve f st prog).2.2.warnings = st.warnings := by
  unfold groupResolve tryWrite
  split
  · exact ⟨rfl, rfl, rfl, rfl, rfl, rfl, rfl⟩
  · split
    · exact ⟨rfl, rfl, rfl, rfl, rfl, rfl, rfl⟩
    · dsimp only
      split
      · exact ⟨rfl, rfl, rfl, rfl, rfl, rfl, rfl⟩
      · exact ⟨rfl, rfl, rfl, rfl, rfl, rfl, rfl⟩

theorem specialtyResolve_frame (f : Nat → Bool) (st : St) (prog : ProgData)
    (gid : Nat) (b : Bool) :
    (specialtyResolve f st prog gid b).2.2.db.organizations = st.db.organizations ∧
    (specialtyResolve f st prog gid b).2.2.db.specialty_groups = st.db.specialty_groups ∧
    (specialtyResolve f st prog gid b).2.2.db.programs = st.db.programs ∧
    (specialtyResolve f st prog gid b).2.2.db.regions = st.db.regions ∧
    (specialtyResolve f st prog gid b).2.2.cacheO = st.cacheO ∧
    (specialtyResolve f st prog gid b).2.2.cacheG = st.cacheG ∧
    (specialtyResolve f st prog gid b).2.2.warnings = st.warnings := by
  unfold specialtyResolve tryWrite
  split
  · exact ⟨rfl, rfl, rfl, rfl, rfl, rfl, rfl⟩
  · split
    · exact ⟨rfl, rfl, rfl, rfl, rfl, rfl, rfl⟩
    · dsimp only
      repeat' split
      all_goals exact ⟨rfl, rfl, rfl, rfl, rfl, rfl, rfl⟩

theorem programInsert_frame (f : Nat → Bool) (st : St) (orgIdx sid : Nat)
    (b : Bool) :
    (programInsert f st orgIdx sid b).db.organizations = st.db.organizations ∧
    (programInsert f st orgIdx sid b).db.specialty_groups = st.db.specialty_groups ∧
    (programInsert f st orgIdx sid b).db.specialties = st.db.specialties ∧
    (programInsert f st orgIdx sid b).db.regions = st.db.regions ∧
    (programInsert f st orgIdx sid b).cacheO = st.cacheO ∧
    (programInsert f st orgIdx sid b).cacheS = st.cacheS ∧
    (programInsert f st orgIdx sid b).cacheG = st.cacheG ∧
    (programInsert f st orgIdx sid b).warnings = st.warnings := by
  unfold programInsert tryWrite
  dsimp only
  repeat' split
  all_goals exact ⟨rfl, rfl, rfl, rfl, rfl, rfl, rfl, rfl⟩

theorem progStep_orgs (f : Nat → Bool) (orgIdx : Nat) (st : St) (prog : ProgData) :
    (progStep f orgIdx st prog).db.organizations = st.db.organizations := by
  unfold progStep
  split
  · rfl
  · split
    · rfl
    · dsimp only
      split
      · exact (groupResolve_frame f st prog).1
      · split
        · rw [(specialtyResolve_frame f _ prog _ _).1, (groupResolve_frame f st prog).1]
        · rw [(programInsert_frame f _ orgIdx _ _).1,
            (specialtyResolve_frame f _ prog _ _).1, (groupResolve_frame f st prog).1]

theorem linkParent_orgsEvolve (st : St) (rec : OrgData) (orgIdx : Nat) :
    orgsEvolve st.db.organizations (linkParent st rec orgIdx).db.organizations := by
  unfold linkParent
  dsimp only
  repeat' split
  all_goals first
    | exact orgsEvolve_refl _
    | exact updateParent_evolve _ _ _

theorem foldl_progStep_orgs (f : Nat → Bool) (orgIdx : Nat) :
    ∀ (l : List ProgData) (s : St),
      (List.foldl (progStep f orgIdx) s l).db.organizations = s.db.organizations
  | [], _ => rfl
  | p :: t, s =>
    (foldl_progStep_orgs f orgIdx t (progStep f orgIdx s p)).trans
      (progStep_orgs f orgIdx s p)

theorem pass2Step_orgsEvolve (f : Nat → Bool) (st : St) (rec : OrgData) :
    orgsEvolve st.db.organizations (pass2Step f st rec).db.organizations := by
  unfold pass2Step
  split
  · exact orgsEvolve_refl _
  · split
    · exact orgsEvolve_refl _
    · split
      · exact orgsEvolve_refl _
      · rw [foldl_progStep_orgs]
        exact linkParent_orgsEvolve st rec _

theorem foldl_orgsEvolve {β : Type} (f : St → β → St)
    (hstep : ∀ s b, orgsEvolve s.db.organizations (f s b).db.organizations) :
    ∀ (l : List β) (s : St),
      orgsEvolve s.db.organizations (List.foldl f s l).db.organizations
  | [], _ => orgsEvolve_refl _
  | b :: t, s =>
    orgsEvolve_trans (hstep s b) (foldl_orgsEvolve f hstep t (f s b))

theorem populateBody_orgsEvolve (f : Nat → Bool) (d : DB) (recs : List OrgData) :
    orgsEvolve d.organizations (populateBody f d recs).db.organizations := by
  unfold populateBody
  dsimp only
  split
  · exact foldl_orgsEvolve _ (pass1Step_orgsEvolve f) recs (initSt d)
  · exact orgsEvolve_trans
      (foldl_orgsEvolve _ (pass1Step_orgsEvolve f) recs (initSt d))
      (foldl_orgsEvolve _ (pass2Step_orgsEvolve f) recs _)

theorem populateDb_ok_db {d : DB} {recs : List OrgData} {hasApp : Bool}
    {faults : Nat → Bool} {d2 : DB} {ws : List LogWarning}
    (h : populateDb d recs hasApp faults = .ok d2 ws) :
    d2 = (populateBody faults d recs).db := by
  by_cases hrecs : recs = []
  · subst hrecs
    have h2 : PopResult.ok d ([] : List LogWarning) = .ok d2 ws := by
      simpa [populateDb] using h
    injection h2 with h3 h4
    rw [← h3]
    rfl
  · rw [populateDb, if_neg hrecs] at h
    by_cases happ : hasApp = true
    · rw [happ] at h
      simp only [not_true, if_neg, ite_false] at h
      cases hE : (populateBody faults d recs).errFlag with
      | some e2 => rw [hE] at h; cases h
      | none =>
        rw [hE] at h
        by_cases hfc : faults (populateBody faults d recs).tick
        · rw [if_pos hfc] at h; cases h
        · rw [if_neg hfc] at h; cases h; rfl
    · have hfalse : hasApp = false := by
        cases hasApp
        · rfl
        · exact absurd rfl happ
      rw [hfalse] at h
      simp only [Bool.false_eq_true, not_false_eq_true, if_pos] at h
      cases h

/-- C4 (amended): for every organization row that exists in storage before the
run — in particular every row whose OGRN matches a parsed record —
reconciliation leaves its id, full_name, short_name, ogrn, inn, address and
region_id unchanged; only parent_id may be updated (by the branch-linking step
of pass 2). -/
theorem c4_core_fields_unchanged (d : DB) (recs : List OrgData)
    (faults : Nat → Bool) (d2 : DB) (ws : List LogWarning)
    (h : populateDb d recs true faults = .ok d2 ws) :
    ∀ (i : Nat) (oldRow : OrgRow), d.organizations[i]? = some oldRow →
      ∃ newRow, d2.organizations[i]? = some newRow ∧
        oldRow.id = newRow.id ∧ oldRow.full_name = newRow.full_name ∧
        oldRow.short_name = newRow.short_name ∧ oldRow.ogrn = newRow.ogrn ∧
        oldRow.inn = newRow.inn ∧ oldRow.address = newRow.address ∧
        oldRow.region_id = newRow.region_id := by
  intro i oldRow hold
  rw [populateDb_ok_db h]
  exact (populateBody_orgsEvolve faults d recs) i oldRow hold

/-- Closed instance of the amended C4 theorem at the C4 scenario: the
pre-existing row keeps all its fields except parent_id. -/
theorem c4_witness :
    ∃ newRow,
      (⟨[], [], [],
        [⟨7, "Old head", "", "200", "", "", none, some 8⟩,
         ⟨8, "New head", "", "100", "", "", none, none⟩],
        [], 0, 0, 0, 9, 0⟩ : DB).organizations[0]? = some newRow ∧
      (⟨7, "Old head", "", "200", "", "", none, none⟩ : OrgRow).id = newRow.id ∧
      (⟨7, "Old head", "", "200", "", "", none, none⟩ : OrgRow).full_name = newRow.full_name ∧
      (⟨7, "Old head", "", "200", "", "", none, none⟩ : OrgRow).short_name = newRow.short_name ∧
      (⟨7, "Old head", "", "200", "", "", none, none⟩ : OrgRow).ogrn = newRow.ogrn ∧
      (⟨7, "Old head", "", "200", "", "", none, none⟩ : OrgRow).inn = newRow.inn ∧
      (⟨7, "Old head", "", "200", "", "", none, none⟩ : OrgRow).address = newRow.address ∧
      (⟨7, "Old head", "", "200", "", "", none, none⟩ : OrgRow).region_id = newRow.region_id :=
  c4_core_fields_unchanged d0C4 [recC4a, recC4b] noFaults
    (⟨[], [], [],
      [⟨7, "Old head", "", "200", "", "", none, some 8⟩,
       ⟨8, "New head", "", "100", "", "", none, none⟩],
      [], 0, 0, 0, 9, 0⟩ : DB) [] (by decide) 0
    ⟨7, "Old head", "", "200", "", "", none, none⟩ (by decide)

theorem pass1Step_absorb (f : Nat → Bool) (st : St) (rec : OrgData)
    (h : st.errFlag.isSome = true) : pass1Step f st rec = st := by
  unfold pass1Step
  rw [if_pos h]

theorem pass2Step_absorb (f : Nat → Bool) (st : St) (rec : OrgData)
    (h : st.errFlag.isSome = true) : pass2Step f st rec = st := by
  unfold pass2Step
  rw [if_pos h]

theorem progStep_absorb (f : Nat → Bool) (orgIdx : Nat) (st : St) (prog : ProgData)
    (h : st.errFlag.isSome = true) : progStep f orgIdx st prog = st := by
  unfold progStep
  rw [if_pos h]

theorem foldAbs {β : Type} (f : St → β → St)
    (hAbs : ∀ s a, s.errFlag.isSome = true → f s a = s) :
    ∀ (l : List β) (s : St), s.errFlag.isSome = true → List.foldl f s l = s
  | [], _, _ => rfl
  | a :: t, s, h => by
    rw [List.foldl_cons, hAbs s a h, foldAbs f hAbs t s h]

theorem foldInv {β : Type} (f : St → β → St) (Q : β → Prop) (I : St → Prop)
    (hI : ∀ s a, Q a → I s → I (f s a)) :
    ∀ (l : List β), (∀ a ∈ l, Q a) → ∀ s, I s → I (List.foldl f s l)
  | [], _, _, hIs => hIs
  | a :: t, hQ, s, hIs => by
    rw [List.foldl_cons]
    exact foldInv f Q I hI t (fun b hb => hQ b (List.mem_cons_of_mem a hb)) (f s a)
      (hI s a (hQ a (List.mem_cons_self a t)) hIs)

theorem foldGoodMem {β : Type} (f : St → β → St) (Q : β → Prop) (I : St → Prop)
    (P : β → St → Prop)
    (hAbs : ∀ s a, s.errFlag.isSome = true → f s a = s)
    (hI : ∀ s a, Q a → I s → I (f s a))
    (hEst : ∀ s a, Q a → s.errFlag = none → (f s a).errFlag = none → I s →
      P a (f s a))
    (hStab : ∀ s a b, Q a → P b s → P b (f s a)) :
    ∀ (l : List β), (∀ a ∈ l, Q a) → ∀ s, I s →
      (List.foldl f s l).errFlag = none →
      I (List.foldl f s l) ∧ ∀ a ∈ l, P a (List.foldl f s l)
  | [], _, s, hIs, _ => ⟨hIs, fun a ha => absurd ha (List.not_mem_nil a)⟩
  | a :: t, hQ, s, hIs, hfin => by
    rw [List.foldl_cons] at hfin ⊢
    have hQa : Q a := hQ a (List.mem_cons_self a t)
    have hfa : (f s a).errFlag = none := by
      cases hfa : (f s a).errFlag with
      | none => rfl
      | some e =>
        rw [foldAbs f hAbs t (f s a) (by rw [hfa]; rfl)] at hfin
        rw [hfa] at hfin
        cases hfin
    have hsok : s.errFlag = none := by
      cases hs : s.errFlag with
      | none => rfl
      | some e =>
        rw [hAbs s a (by rw [hs]; rfl)] at hfa
        rw [hs] at hfa
        cases hfa
    have hIfa : I (f s a) := hI s a hQa hIs
    obtain ⟨hIfin, hPfin⟩ :=
      foldGoodMem f Q I P hAbs hI hEst hStab t
        (fun b hb => hQ b (List.mem_cons_of_mem a hb)) (f s a) hIfa hfin
    refine ⟨hIfin, ?_⟩
    intro b hb
    rcases List.mem_cons.mp hb with h1 | h1
    · subst h1
      have hPa : P b (f s b) := hEst s b hQa hsok hfa hIs
      exact foldInv f Q (P b) (fun s2 a2 hQ2 hP2 => hStab s2 a2 b hQ2 hP2) t
        (fun c hc => hQ c (List.mem_cons_of_mem b hc)) (f s b) hPa
    · exact hPfin b h1

theorem resolveRegion_err (st : St) (rec : OrgData) :
    (resolveRegion noFaults st rec).2.errFlag = st.errFlag := by
  unfold resolveRegion resolveRegionByName
  simp only [tryWrite_noFaults]
  repeat' split
  all_goals rfl

theorem resolveRegion_frame (f : Nat → Bool) (st : St) (rec : OrgData) :
    (resolveRegion f st rec).2.db.specialty_groups = st.db.specialty_groups ∧
    (resolveRegion f st rec).2.db.specialties = st.db.specialties ∧
    (resolveRegion f st rec).2.db.programs = st.db.programs ∧
    (resolveRegion f st rec).2.cacheO = st.cacheO ∧
    (resolveRegion f st rec).2.cacheS = st.cacheS ∧
    (resolveRegion f st rec).2.cacheG = st.cacheG := by
  unfold resolveRegion resolveRegionByName tryWrite
  repeat' split
  all_goals exact ⟨rfl, rfl, rfl, rfl, rfl, rfl⟩

theorem pass1Step_err (st : St) (rec : OrgData) :
    (pass1Step noFaults st rec).errFlag = st.errFlag := by
  unfold pass1Step
  split
  · rfl
  · dsimp only
    split
    · rfl
    · split
      · rfl
      · split
        · rfl
        · split
          · exact resolveRegion_err st rec
          · simp only [tryWrite_noFaults]
            exact resolveRegion_err st rec

theorem pass1Step_frame (f : Nat → Bool) (st : St) (rec : OrgData) :
    (pass1Step f st rec).db.specialty_groups = st.db.specialty_groups ∧
    (pass1Step f st rec).db.specialties = st.db.specialties ∧
    (pass1Step f st rec).db.programs = st.db.programs ∧
    (pass1Step f st rec).cacheS = st.cacheS ∧
    (pass1Step f st rec).cacheG = st.cacheG := by
  unfold pass1Step
  split
  · exact ⟨rfl, rfl, rfl, rfl, rfl⟩
  · dsimp only
    split
    · exact ⟨rfl, rfl, rfl, rfl, rfl⟩
    · split
      · exact ⟨rfl, rfl, rfl, rfl, rfl⟩
      · split
        · exact ⟨rfl, rfl, rfl, rfl, rfl⟩
        · split
          · exact ⟨(resolveRegion_frame f st rec).1, (resolveRegion_frame f st rec).2.1,
              (resolveRegion_frame f st rec).2.2.1, (resolveRegion_frame f st rec).2.2.2.2.1,
              (resolveRegion_frame f st rec).2.2.2.2.2⟩
          · unfold tryWrite
            split
            · exact ⟨(resolveRegion_frame f st rec).1, (resolveRegion_frame f st rec).2.1,
                (resolveRegion_frame f st rec).2.2.1, (resolveRegion_frame f st rec).2.2.2.2.1,
                (resolveRegion_frame f st rec).2.2.2.2.2⟩
            · dsimp only
              exact ⟨(resolveRegion_frame f st rec).1, (resolveRegion_frame f st rec).2.1,
                (resolveRegion_frame f st rec).2.2.1, (resolveRegion_frame f st rec).2.2.2.2.1,
                (resolveRegion_frame f st rec).2.2.2.2.2⟩

theorem pass1Step_cacheO_shape (f : Nat → Bool) (st : St) (rec : OrgData) :
    (pass1Step f st rec).cacheO = st.cacheO ∨
      ∃ k v, (pass1Step f st rec).cacheO = (k, v) :: st.cacheO := by
  unfold pass1Step
  split
  · exact Or.inl rfl
  · dsimp only
    split
    · exact Or.inl rfl
    · split
      · exact Or.inl rfl
      · split
        · exact Or.inr ⟨rec.ogrn, _, rfl⟩
        · split
          · exact Or.inl (resolveRegion_frame f st rec).2.2.2.1
          · unfold tryWrite
            split
            · exact Or.inl (resolveRegion_frame f st rec).2.2.2.1
            · dsimp only
              exact Or.inr ⟨rec.ogrn, _, by
                rw [(resolveRegion_frame f st rec).2.2.2.1]⟩

theorem pass1Step_lookup_mono (f : Nat → Bool) (st : St) (rec : OrgData)
    (k : String) (h : ∃ i, cacheLookup k st.cacheO = some i) :
    ∃ i, cacheLookup k (pass1Step f st rec).cacheO = some i := by
  obtain ⟨i, hi⟩ := h
  rcases pass1Step_cacheO_shape f st rec with hsh | ⟨k2, v2, hsh⟩
  · exact ⟨i, by rw [hsh]; exact hi⟩
  · rw [hsh]
    exact cacheLookup_cons_isSome k2 v2 hi

theorem pass1Step_cacheOok (f : Nat → Bool) (st : St) (rec : OrgData)
    (h : cacheOok st.cacheO st.db.organizations) :
    cacheOok (pass1Step f st rec).cacheO (pass1Step f st rec).db.organizations := by
  unfold pass1Step
  split
  · exact h
  · dsimp only
    split
    · exact h
    · split
      · exact h
      · split
        · next idx heq =>
          intro pr hpr
          rcases List.mem_cons.mp hpr with h1 | h1
          · rw [h1]
            exact heq
          · exact h pr h1
        · next heq =>
          split
          · rw [resolveRegion_orgs, (resolveRegion_frame f st rec).2.2.2.1]
            exact h
          · unfold tryWrite
            split
            · rw [resolveRegion_orgs, (resolveRegion_frame f st rec).2.2.2.1]
              exact h
            · dsimp only
              rw [resolveRegion_orgs, (resolveRegion_frame f st rec).2.2.2.1]
              intro pr hpr
              rcases List.mem_cons.mp hpr with h1 | h1
              · rw [h1]
                exact firstIdxOgrn_none_append heq rfl
              · exact firstIdxOgrn_append_some _ (h pr h1)

theorem pass1Step_complete (st : St) (rec : OrgData)
    (hok : st.errFlag = none) (hg : rec.ogrn ≠ "") :
    ∃ i, cacheLookup rec.ogrn (pass1Step noFaults st rec).cacheO = some i := by
  unfold pass1Step
  rw [show st.errFlag.isSome = false by rw [hok]; rfl]
  rw [if_neg (by simp)]
  dsimp only
  rw [if_neg hg]
  cases hcl : cacheLookup rec.ogrn st.cacheO with
  | some i => simp only [hcl]; exact ⟨i, rfl⟩
  | none =>
    simp only [hcl]
    cases hidx : firstIdxOgrn rec.ogrn st.db.organizations with
    | some idx =>
      simp only [hidx]
      exact ⟨idx, by simp [cacheLookup_cons]⟩
    | none =>
      simp only [hidx]
      rw [show (resolveRegion noFaults st rec).2.errFlag.isSome = false by
        rw [resolveRegion_err st rec, hok]; rfl]
      rw [if_neg (by simp)]
      simp only [tryWrite_noFaults]
      refine ⟨(resolveRegion noFaults st rec).2.db.organizations.length, ?_⟩
      simp [cacheLookup_cons]

theorem foldl_pass1_err (recs : List OrgData) (s : St) :
    (List.foldl (pass1Step noFaults) s recs).errFlag = s.errFlag := by
  induction recs generalizing s with
  | nil => rfl
  | cons a t ih => rw [List.foldl_cons, ih, pass1Step_err]

theorem pass1_run1_post (d : DB) (recs : List OrgData) :
    (List.foldl (pass1Step noFaults) (initSt d) recs).errFlag = none ∧
    (List.foldl (pass1Step noFaults) (initSt d) recs).cacheS = [] ∧
    (List.foldl (pass1Step noFaults) (initSt d) recs).cacheG = [] ∧
    cacheOok (List.foldl (pass1Step noFaults) (initSt d) recs).cacheO
      (List.foldl (pass1Step noFaults) (initSt d) recs).db.organizations ∧
    ∀ rec ∈ recs, rec.ogrn ≠ "" →
      ∃ i, cacheLookup rec.ogrn
        (List.foldl (pass1Step noFaults) (initSt d) recs).cacheO = some i := by
  have herr := foldl_pass1_err recs (initSt d)
  obtain ⟨hI, hP⟩ := foldGoodMem (pass1Step noFaults) (fun _ => True)
    (fun s => s.errFlag = none ∧ s.cacheS = [] ∧ s.cacheG = [] ∧
      cacheOok s.cacheO s.db.organizations)
    (fun rec s => rec.ogrn ≠ "" → ∃ i, cacheLookup rec.ogrn s.cacheO = some i)
    (pass1Step_absorb noFaults)
    (fun s a _ hIs => ⟨by rw [pass1Step_err]; exact hIs.1,
      (pass1Step_frame noFaults s a).2.2.2.1.trans hIs.2.1,
      (pass1Step_frame noFaults s a).2.2.2.2.trans hIs.2.2.1,
      pass1Step_cacheOok noFaults s a hIs.2.2.2⟩)
    (fun s a _ hok _ _ hg => pass1Step_complete s a hok hg)
    (fun s a b _ hPb hg => pass1Step_lookup_mono noFaults s a b.ogrn (hPb hg))
    recs (fun _ _ => trivial) (initSt d)
    ⟨rfl, rfl, rfl, fun pr hpr => by simp [initSt] at hpr⟩
    (by rw [herr]; rfl)
  exact ⟨by rw [herr]; rfl, hI.2.1, hI.2.2.1, hI.2.2.2, hP⟩

theorem groupResolve_post (st : St) (prog : ProgData)
    (hG : cacheGok st.cacheG st.db.specialty_groups) :
    (∃ grow ∈ (groupResolve noFaults st prog).2.2.db.specialty_groups,
      grow.code = prog.ugs_code) ∧
    cacheGok (groupResolve noFaults st prog).2.2.cacheG
      (groupResolve noFaults st prog).2.2.db.specialty_groups ∧
    (groupResolve noFaults st prog).2.2.errFlag = st.errFlag := by
  unfold groupResolve
  cases hc : cacheLookup prog.ugs_code st.cacheG with
  | some gid =>
    simp only [hc]
    obtain ⟨grow, hmem, hcode⟩ := hG (prog.ugs_code, gid) (cacheLookup_mem hc)
    exact ⟨⟨grow, hmem, hcode⟩, hG, trivial⟩
  | none =>
    simp only [hc]
    cases hf : st.db.specialty_groups.find? (fun g => g.code = prog.ugs_code) with
    | some g =>
      simp only [hf]
      have hcode : g.code = prog.ugs_code := by simpa using List.find?_some hf
      refine ⟨⟨g, List.mem_of_find?_eq_some hf, hcode⟩, ?_, trivial⟩
      intro pr hpr
      rcases List.mem_cons.mp hpr with h1 | h1
      · rw [h1]
        exact ⟨g, List.mem_of_find?_eq_some hf, hcode⟩
      · exact hG pr h1
    | none =>
      simp only [hf, tryWrite_noFaults]
      refine ⟨⟨⟨st.db.nextGroupId, prog.ugs_code, prog.ugs_name⟩, by simp, rfl⟩,
        ?_, trivial⟩
      intro pr hpr
      rcases List.mem_cons.mp hpr with h1 | h1
      · rw [h1]
        exact ⟨⟨st.db.nextGroupId, prog.ugs_code, prog.ugs_name⟩, by simp, rfl⟩
      · obtain ⟨grow, hmem, hcode⟩ := hG pr h1
        exact ⟨grow, by simp [hmem], hcode⟩

theorem specialtyResolve_post (st : St) (prog : ProgData) (gid : Nat) (b : Bool)
    (hS : cacheSok st.cacheS st.db.specialties)
    (hok : st.errFlag = none)
    (hok2 : (specialtyResolve noFaults st prog gid b).2.2.errFlag = none) :
    (∃ srow, (specialtyResolve noFaults st prog gid b).2.2.db.specialties.find?
        (fun s => s.code = prog.specialty_code) = some srow ∧
      srow.id = (specialtyResolve noFaults st prog gid b).1) ∧
    cacheSok (specialtyResolve noFaults st prog gid b).2.2.cacheS
      (specialtyResolve noFaults st prog gid b).2.2.db.specialties := by
  unfold specialtyResolve at hok2 ⊢
  cases hc : cacheLookup prog.specialty_code st.cacheS with
  | some sid =>
    simp only [hc]
    obtain ⟨srow, hfind, hid⟩ := hS (prog.specialty_code, sid) (cacheLookup_mem hc)
    exact ⟨⟨srow, hfind, hid⟩, hS⟩
  | none =>
    simp only [hc] at hok2 ⊢
    cases hf : st.db.specialties.find? (fun s => s.code = prog.specialty_code) with
    | some srow =>
      simp only [hf]
      refine ⟨⟨srow, rfl, rfl⟩, ?_⟩
      intro pr hpr
      rcases List.mem_cons.mp hpr with h1 | h1
      · rw [h1]
        exact ⟨srow, hf, rfl⟩
      · exact hS pr h1
    | none =>
      simp only [hf, tryWrite_noFaults] at hok2 ⊢
      cases b with
      | true => simp [hok] at hok2
      | false =>
        simp only [show ((if (false : Bool) = true then none else some gid) : Option Nat)
            = some gid by simp] at hok2 ⊢
        simp only [show ((some gid : Option Nat) = none) = False by simp,
          if_false] at hok2 ⊢
        simp only [hok, Option.isSome_none, Bool.false_eq_true, if_false] at hok2 ⊢
        have hnew : (fun (s : SpecialtyRow) => decide (s.code = prog.specialty_code))
            (⟨st.db.nextSpecialtyId, prog.specialty_code, prog.specialty_name,
              some gid⟩ : SpecialtyRow) = true := by simp
        refine ⟨⟨⟨st.db.nextSpecialtyId, prog.specialty_code, prog.specialty_name,
          some gid⟩, ?_, rfl⟩, ?_⟩
        · exact find?_none_append hf hnew
        · intro pr hpr
          rcases List.mem_cons.mp hpr with h1 | h1
          · rw [h1]
            exact ⟨⟨st.db.nextSpecialtyId, prog.specialty_code, prog.specialty_name,
              some gid⟩, find?_none_append hf hnew, rfl⟩
          · obtain ⟨srow, hfind, hid⟩ := hS pr h1
            exact ⟨srow, find?_append_some _ hfind, hid⟩

theorem programInsert_post (st : St) (orgIdx sid : Nat) (b : Bool) (orow : OrgRow)
    (hrow : st.db.organizations.get? orgIdx = some orow) :
    ∃ p ∈ (programInsert noFaults st orgIdx sid b).db.programs,
      p.organization_id = orow.id ∧ p.specialty_id = sid := by
  unfold programInsert
  rw [hrow]
  simp only [tryWrite_noFaults]
  split
  · next p hp =>
    cases b with
    | true => simp at hp
    | false =>
      simp only [Bool.false_eq_true, if_false] at hp
      have hps := List.find?_some hp
      simp only [Bool.and_eq_true, decide_eq_true_eq] at hps
      exact ⟨p, List.mem_of_find?_eq_some hp, hps.1, hps.2⟩
  · exact ⟨⟨st.db.nextProgramId, orow.id, sid⟩, by simp, rfl, rfl⟩

theorem groupResolve_groups_shape (f : Nat → Bool) (st : St) (prog : ProgData) :
    ∃ suf, (groupResolve f st prog).2.2.db.specialty_groups =
      st.db.specialty_groups ++ suf := by
  unfold groupResolve tryWrite
  repeat' split
  all_goals first
    | exact ⟨[], (List.append_nil _).symm⟩
    | exact ⟨_, rfl⟩

theorem specialtyResolve_specs_shape (f : Nat → Bool) (st : St) (prog : ProgData)
    (gid : Nat) (b : Bool) :
    ∃ suf, (specialtyResolve f st prog gid b).2.2.db.specialties =
      st.db.specialties ++ suf := by
  unfold specialtyResolve tryWrite
  dsimp only
  repeat' split
  all_goals first
    | exact ⟨[], (List.append_nil _).symm⟩
    | exact ⟨_, rfl⟩

theorem programInsert_programs_shape (f : Nat → Bool) (st : St) (orgIdx sid : Nat)
    (b : Bool) :
    ∃ suf, (programInsert f st orgIdx sid b).db.programs =
      st.db.programs ++ suf := by
  unfold programInsert tryWrite
  dsimp only
  repeat' split
  all_goals first
    | exact ⟨[], (List.append_nil _).symm⟩
    | exact ⟨_, rfl⟩

theorem groupResolve_cacheGok (f : Nat → Bool) (st : St) (prog : ProgData)
    (hG : cacheGok st.cacheG st.db.specialty_groups) :
    cacheGok (groupResolve f st prog).2.2.cacheG
      (groupResolve f st prog).2.2.db.specialty_groups := by
  unfold groupResolve
  cases hc : cacheLookup prog.ugs_code st.cacheG with
  | some gid => simpa using hG
  | none =>
    simp only [hc]
    cases hf : st.db.specialty_groups.find? (fun g => g.code = prog.ugs_code) with
    | some g =>
      simp only [hf]
      intro pr hpr
      rcases List.mem_cons.mp hpr with h1 | h1
      · rw [h1]
        exact ⟨g, List.mem_of_find?_eq_some hf, by simpa using List.find?_some hf⟩
      · exact hG pr h1
    | none =>
      simp only [hf]
      unfold tryWrite
      split
      · simpa using hG
      · dsimp only
        intro pr hpr
        rcases List.mem_cons.mp hpr with h1 | h1
        · rw [h1]
          exact ⟨⟨st.db.nextGroupId, prog.ugs_code, prog.ugs_name⟩, by simp, rfl⟩
        · obtain ⟨grow, hmem, hcode⟩ := hG pr h1
          exact ⟨grow, by simp [hmem], hcode⟩

theorem specialtyResolve_cacheSok (f : Nat → Bool) (st : St) (prog : ProgData)
    (gid : Nat) (b : Bool)
    (hS : cacheSok st.cacheS st.db.specialties) :
    cacheSok (specialtyResolve f st prog gid b).2.2.cacheS
      (specialtyResolve f st prog gid b).2.2.db.specialties := by
  unfold specialtyResolve
  cases hc : cacheLookup prog.specialty_code st.cacheS with
  | some sid => simpa using hS
  | none =>
    simp only [hc]
    cases hf : st.db.specialties.find? (fun s => s.code = prog.specialty_code) with
    | some srow =>
      simp only [hf]
      intro pr hpr
      rcases List.mem_cons.mp hpr with h1 | h1
      · rw [h1]
        exact ⟨srow, hf, rfl⟩
      · exact hS pr h1
    | none =>
      simp only [hf]
      unfold tryWrite
      have hnext : ∀ (gd : Option Nat),
          cacheSok ((prog.specialty_code, st.db.nextSpecialtyId) :: st.cacheS)
            (st.db.specialties ++
              [⟨st.db.nextSpecialtyId, prog.specialty_code, prog.specialty_name, gd⟩]) := by
        intro gd pr hpr
        rcases List.mem_cons.mp hpr with h1 | h1
        · rw [h1]
          exact ⟨⟨st.db.nextSpecialtyId, prog.specialty_code, prog.specialty_name, gd⟩,
            find?_none_append hf (by simp), rfl⟩
        · obtain ⟨srow, hfind, hid⟩ := hS pr h1
          exact ⟨srow, find?_append_some _ hfind, hid⟩
      split
      · dsimp only
        split
        · simpa using hS
        · split
          · simpa using hS
          · simpa using hS
      · dsimp only
        split
        · exact hnext _
        · split
          · exact hnext _
          · exact hnext _

theorem linkParent_frame (st : St) (rec : OrgData) (orgIdx : Nat) :
    (linkParent st rec orgIdx).db.specialty_groups = st.db.specialty_groups ∧
    (linkParent st rec orgIdx).db.specialties = st.db.specialties ∧
    (linkParent st rec orgIdx).db.programs = st.db.programs ∧
    (linkParent st rec orgIdx).cacheO = st.cacheO ∧
    (linkParent st rec orgIdx).cacheS = st.cacheS ∧
    (linkParent st rec orgIdx).cacheG = st.cacheG ∧
    (linkParent st rec orgIdx).errFlag = st.errFlag ∧
    (linkParent st rec orgIdx).db.organizations.length =
      st.db.organizations.length := by
  unfold linkParent
  dsimp only
  repeat' split
  all_goals exact ⟨rfl, rfl, rfl, rfl, rfl, rfl, rfl,
    by first | rfl | simp [updateParent_length]⟩

theorem cacheOok_congr {c : List (String × Nat)} {l l2 : List OrgRow}
    (h : cacheOok c l) (hlen : l.length = l2.length) (hev : orgsEvolve l l2) :
    cacheOok c l2 := by
  intro pr hpr
  rw [← orgsEvolve_firstIdx hev hlen]
  exact h pr hpr

theorem progStep_cacheO (f : Nat → Bool) (orgIdx : Nat) (st : St) (prog : ProgData) :
    (progStep f orgIdx st prog).cacheO = st.cacheO := by
  unfold progStep
  split
  · rfl
  · split
    · rfl
    · dsimp only
      split
      · exact (groupResolve_frame f st prog).2.2.2.2.1
      · split
        · rw [(specialtyResolve_frame f _ prog _ _).2.2.2.2.1,
            (groupResolve_frame f st prog).2.2.2.2.1]
        · rw [(programInsert_frame f _ orgIdx _ _).2.2.2.2.1,
            (specialtyResolve_frame f _ prog _ _).2.2.2.2.1,
            (groupResolve_frame f st prog).2.2.2.2.1]

theorem progStep_cacheSok (f : Nat → Bool) (orgIdx : Nat) (st : St) (prog : ProgData)
    (hS : cacheSok st.cacheS st.db.specialties) :
    cacheSok (progStep f orgIdx st prog).cacheS
      (progStep f orgIdx st prog).db.specialties := by
  unfold progStep
  split
  · exact hS
  · split
    · exact hS
    · dsimp only
      split
      · rw [(groupResolve_frame f st prog).2.2.2.2.2.1,
          (groupResolve_frame f st prog).2.1]
        exact hS
      · split
        · have h1 : cacheSok (groupResolve f st prog).2.2.cacheS
              (groupResolve f st prog).2.2.db.specialties := by
            rw [(groupResolve_frame f st prog).2.2.2.2.2.1,
              (groupResolve_frame f st prog).2.1]
            exact hS
          exact specialtyResolve_cacheSok f _ prog _ _ h1
        · have h1 : cacheSok (groupResolve f st prog).2.2.cacheS
              (groupResolve f st prog).2.2.db.specialties := by
            rw [(groupResolve_frame f st prog).2.2.2.2.2.1,
              (groupResolve_frame f st prog).2.1]
            exact hS
          have h2 := specialtyResolve_cacheSok f _ prog (groupResolve f st prog).1
            (groupResolve f st prog).2.1 h1
          rw [(programInsert_frame f _ orgIdx _ _).2.2.2.2.2.1,
            (programInsert_frame f _ orgIdx _ _).2.2.1]
          exact h2

theorem progStep_cacheGok (f : Nat → Bool) (orgIdx : Nat) (st : St) (prog : ProgData)
    (hG : cacheGok st.cacheG st.db.specialty_groups) :
    cacheGok (progStep f orgIdx st prog).cacheG
      (progStep f orgIdx st prog).db.specialty_groups := by
  unfold progStep
  split
  · exact hG
  · split
    · exact hG
    · dsimp only
      split
      · exact groupResolve_cacheGok f st prog hG
      · split
        · rw [(specialtyResolve_frame f _ prog _ _).2.2.2.2.2.1,
            (specialtyResolve_frame f _ prog _ _).2.1]
          exact groupResolve_cacheGok f st prog hG
        · rw [(programInsert_frame f _ orgIdx _ _).2.2.2.2.2.2.1,
            (programInsert_frame f _ orgIdx _ _).2.1,
            (specialtyResolve_frame f _ prog _ _).2.2.2.2.2.1,
            (specialtyResolve_frame f _ prog _ _).2.1]
          exact groupResolve_cacheGok f st prog hG

theorem progStep_shape (f : Nat → Bool) (orgIdx : Nat) (st : St) (prog : ProgData) :
    (∃ suf, (progStep f orgIdx st prog).db.specialty_groups =
      st.db.specialty_groups ++ suf) ∧
    (∃ suf, (progStep f orgIdx st prog).db.specialties =
      st.db.specialties ++ suf) ∧
    (∃ suf, (progStep f orgIdx st prog).db.programs = st.db.programs ++ suf) := by
  unfold progStep
  split
  · exact ⟨⟨[], (List.append_nil _).symm⟩, ⟨[], (List.append_nil _).symm⟩,
      ⟨[], (List.append_nil _).symm⟩⟩
  · split
    · exact ⟨⟨[], (List.append_nil _).symm⟩, ⟨[], (List.append_nil _).symm⟩,
        ⟨[], (List.append_nil _).symm⟩⟩
    · dsimp only
      split
      · obtain ⟨s1, hs1⟩ := groupResolve_groups_shape f st prog
        exact ⟨⟨s1, hs1⟩,
          ⟨[], by rw [(groupResolve_frame f st prog).2.1, List.append_nil]⟩,
          ⟨[], by rw [(groupResolve_frame f st prog).2.2.1, List.append_nil]⟩⟩
      · obtain ⟨s1, hs1⟩ := groupResolve_groups_shape f st prog
        obtain ⟨s2, hs2⟩ := specialtyResolve_specs_shape f
          (groupResolve f st prog).2.2 prog (groupResolve f st prog).1
          (groupResolve f st prog).2.1
        split
        · refine ⟨⟨s1, ?_⟩, ⟨s2, ?_⟩, ⟨[], ?_⟩⟩
          · rw [(specialtyResolve_frame f _ prog _ _).2.1, hs1]
          · rw [hs2, (groupResolve_frame f st prog).2.1]
          · rw [(specialtyResolve_frame f _ prog _ _).2.2.1,
              (groupResolve_frame f st prog).2.2.1, List.append_nil]
        · obtain ⟨s3, hs3⟩ := programInsert_programs_shape f
            (specialtyResolve f (groupResolve f st prog).2.2 prog
              (groupResolve f st prog).1 (groupResolve f st prog).2.1).2.2 orgIdx
            (specialtyResolve f (groupResolve f st prog).2.2 prog
              (groupResolve f st prog).1 (groupResolve f st prog).2.1).1
            (specialtyResolve f (groupResolve f st prog).2.2 prog
              (groupResolve f st prog).1 (groupResolve f st prog).2.1).2.1
          refine ⟨⟨s1, ?_⟩, ⟨s2, ?_⟩, ⟨s3, ?_⟩⟩
          · rw [(programInsert_frame f _ orgIdx _ _).2.1,
              (specialtyResolve_frame f _ prog _ _).2.1, hs1]
          · rw [(programInsert_frame f _ orgIdx _ _).2.2.1, hs2,
              (groupResolve_frame f st prog).2.1]
          · rw [hs3, (specialtyResolve_frame f _ prog _ _).2.2.1,
              (groupResolve_frame f st prog).2.2.1]

theorem progFact_mono {dA dB : DB} {g : String} {prog : ProgData}
    (hgrp : ∃ suf, dB.specialty_groups = dA.specialty_groups ++ suf)
    (hspec : ∃ suf, dB.specialties = dA.specialties ++ suf)
    (hprogs : ∃ suf, dB.programs = dA.programs ++ suf)
    (hlen : dA.organizations.length = dB.organizations.length)
    (hev : orgsEvolve dA.organizations dB.organizations)
    (hF : progFact dA g prog) : progFact dB g prog := by
  intro hsc huc
  obtain ⟨⟨grow, hgmem, hgcode⟩, srow, oi, orow, hsfind, hoidx, horow, p, hpmem,
    hporg, hpspec⟩ := hF hsc huc
  obtain ⟨s1, hs1⟩ := hgrp
  obtain ⟨s2, hs2⟩ := hspec
  obtain ⟨s3, hs3⟩ := hprogs
  refine ⟨⟨grow, by rw [hs1]; exact List.mem_append_left _ hgmem, hgcode⟩, ?_⟩
  obtain ⟨orow2, horow2, hcore⟩ := hev oi orow horow
  refine ⟨srow, oi, orow2, ?_, ?_, horow2, p, ?_, ?_, hpspec⟩
  · rw [hs2]
    exact find?_append_some _ hsfind
  · rw [← orgsEvolve_firstIdx hev hlen]
    exact hoidx
  · rw [hs3]
    exact List.mem_append_left _ hpmem
  · rw [hporg]
    exact hcore.1

theorem progStep_establish (st : St) (prog : ProgData) (g : String) (orgIdx : Nat)
    (hok : st.errFlag = none)
    (hok2 : (progStep noFaults orgIdx st prog).errFlag = none)
    (hG : cacheGok st.cacheG st.db.specialty_groups)
    (hS : cacheSok st.cacheS st.db.specialties)
    (hIdx : firstIdxOgrn g st.db.organizations = some orgIdx) :
    progFact (progStep noFaults orgIdx st prog).db g prog := by
  intro hsc huc
  unfold progStep at hok2 ⊢
  rw [show st.errFlag.isSome = false by rw [hok]; rfl] at hok2 ⊢
  rw [if_neg (by simp)] at hok2 ⊢
  rw [if_neg (show ¬((decide (prog.specialty_code = "") ||
      decide (prog.ugs_code = "")) = true) by simp [hsc, huc])] at hok2 ⊢
  dsimp only at hok2 ⊢
  have hgpost := groupResolve_post st prog hG
  have hgerr : (groupResolve noFaults st prog).2.2.errFlag = none := by
    rw [hgpost.2.2, hok]
  rw [show (groupResolve noFaults st prog).2.2.errFlag.isSome = false by
    rw [hgerr]; rfl] at hok2 ⊢
  rw [if_neg (by simp)] at hok2 ⊢
  have hgS : cacheSok (groupResolve noFaults st prog).2.2.cacheS
      (groupResolve noFaults st prog).2.2.db.specialties := by
    rw [(groupResolve_frame noFaults st prog).2.2.2.2.2.1,
      (groupResolve_frame noFaults st prog).2.1]
    exact hS
  cases hserr : (specialtyResolve noFaults (groupResolve noFaults st prog).2.2
      prog (groupResolve noFaults st prog).1 (groupResolve noFaults st prog).2.1).2.2.errFlag with
  | some e =>
    simp [hserr] at hok2
  | none =>
    simp only [hserr, Option.isSome_none, Option.isSome_some, Bool.false_eq_true,
      if_false] at hok2 ⊢
    have hspost := specialtyResolve_post (groupResolve noFaults st prog).2.2 prog
      (groupResolve noFaults st prog).1 (groupResolve noFaults st prog).2.1
      hgS hgerr hserr
    obtain ⟨⟨srow, hsfind, hsid⟩, hsS⟩ := hspost
    obtain ⟨orow, horow, _⟩ := firstIdxOgrn_get hIdx
    have horow2 : (specialtyResolve noFaults (groupResolve noFaults st prog).2.2
        prog (groupResolve noFaults st prog).1
        (groupResolve noFaults st prog).2.1).2.2.db.organizations.get? orgIdx =
        some orow := by
      rw [List.get?_eq_getElem?, (specialtyResolve_frame noFaults _ prog _ _).1,
        (groupResolve_frame noFaults st prog).1]
      exact horow
    have hppost := programInsert_post
      (specialtyResolve noFaults (groupResolve noFaults st prog).2.2 prog
        (groupResolve noFaults st prog).1 (groupResolve noFaults st prog).2.1).2.2
      orgIdx
      (specialtyResolve noFaults (groupResolve noFaults st prog).2.2 prog
        (groupResolve noFaults st prog).1 (groupResolve noFaults st prog).2.1).1
      (specialtyResolve noFaults (groupResolve noFaults st prog).2.2 prog
        (groupResolve noFaults st prog).1 (groupResolve noFaults st prog).2.1).2.1
      orow horow2
    obtain ⟨⟨grow, hgmem, hgcode⟩, _, _⟩ := hgpost
    obtain ⟨p, hpmem, hporg, hpspec⟩ := hppost
    refine ⟨⟨grow, ?_, hgcode⟩, srow, orgIdx, orow, ?_, ?_, ?_, p, hpmem, hporg, ?_⟩
    · rw [(programInsert_frame noFaults _ orgIdx _ _).2.1,
        (specialtyResolve_frame noFaults _ prog _ _).2.1]
      exact hgmem
    · rw [(programInsert_frame noFaults _ orgIdx _ _).2.2.1]
      exact hsfind
    · rw [(programInsert_frame noFaults _ orgIdx _ _).1,
        (specialtyResolve_frame noFaults _ prog _ _).1,
        (groupResolve_frame noFaults st prog).1]
      exact hIdx
    · rw [(programInsert_frame noFaults _ orgIdx _ _).1,
        (specialtyResolve_frame noFaults _ prog _ _).1,
        (groupResolve_frame noFaults st prog).1]
      exact horow
    · rw [hpspec, hsid]

theorem foldl_progStep_cacheO (f : Nat → Bool) (orgIdx : Nat) :
    ∀ (l : List ProgData) (s : St),
      (List.foldl (progStep f orgIdx) s l).cacheO = s.cacheO
  | [], _ => rfl
  | p :: t, s =>
    (foldl_progStep_cacheO f orgIdx t (progStep f orgIdx s p)).trans
      (progStep_cacheO f orgIdx s p)

theorem foldl_progStep_cacheSok (f : Nat → Bool) (orgIdx : Nat) :
    ∀ (l : List ProgData) (s : St), cacheSok s.cacheS s.db.specialties →
      cacheSok (List.foldl (progStep f orgIdx) s l).cacheS
        (List.foldl (progStep f orgIdx) s l).db.specialties
  | [], _, h => h
  | p :: t, s, h =>
    foldl_progStep_cacheSok f orgIdx t (progStep f orgIdx s p)
      (progStep_cacheSok f orgIdx s p h)

theorem foldl_progStep_cacheGok (f : Nat → Bool) (orgIdx : Nat) :
    ∀ (l : List ProgData) (s : St), cacheGok s.cacheG s.db.specialty_groups →
      cacheGok (List.foldl (progStep f orgIdx) s l).cacheG
        (List.foldl (progStep f orgIdx) s l).db.specialty_groups
  | [], _, h => h
  | p :: t, s, h =>
    foldl_progStep_cacheGok f orgIdx t (progStep f orgIdx s p)
      (progStep_cacheGok f orgIdx s p h)

theorem foldl_progStep_shape (f : Nat → Bool) (orgIdx : Nat) :
    ∀ (l : List ProgData) (s : St),
      (∃ suf, (List.foldl (progStep f orgIdx) s l).db.specialty_groups =
        s.db.specialty_groups ++ suf) ∧
      (∃ suf, (List.foldl (progStep f orgIdx) s l).db.specialties =
        s.db.specialties ++ suf) ∧
      (∃ suf, (List.foldl (progStep f orgIdx) s l).db.programs =
        s.db.programs ++ suf)
  | [], s => ⟨⟨[], (List.append_nil _).symm⟩, ⟨[], (List.append_nil _).symm⟩,
      ⟨[], (List.append_nil _).symm⟩⟩
  | p :: t, s => by
    rw [List.foldl_cons]
    obtain ⟨⟨g1, hg1⟩, ⟨sp1, hsp1⟩, ⟨pr1, hpr1⟩⟩ := progStep_shape f orgIdx s p
    obtain ⟨⟨g2, hg2⟩, ⟨sp2, hsp2⟩, ⟨pr2, hpr2⟩⟩ :=
      foldl_progStep_shape f orgIdx t (progStep f orgIdx s p)
    exact ⟨⟨g1 ++ g2, by rw [hg2, hg1, List.append_assoc]⟩,
      ⟨sp1 ++ sp2, by rw [hsp2, hsp1, List.append_assoc]⟩,
      ⟨pr1 ++ pr2, by rw [hpr2, hpr1, List.append_assoc]⟩⟩

theorem pass2Step_cacheO (f : Nat → Bool) (st : St) (rec : OrgData) :
    (pass2Step f st rec).cacheO = st.cacheO := by
  unfold pass2Step
  split
  · rfl
  · split
    · rfl
    · split
      · rfl
      · rw [foldl_progStep_cacheO, (linkParent_frame st rec _).2.2.2.1]

theorem pass2Step_orgs_len (f : Nat → Bool) (st : St) (rec : OrgData) :
    (pass2Step f st rec).db.organizations.length =
      st.db.organizations.length := by
  unfold pass2Step
  split
  · rfl
  · split
    · rfl
    · split
      · rfl
      · rw [foldl_progStep_orgs, (linkParent_frame st rec _).2.2.2.2.2.2.2]

theorem pass2Step_shape (f : Nat → Bool) (st : St) (rec : OrgData) :
    (∃ suf, (pass2Step f st rec).db.specialty_groups =
      st.db.specialty_groups ++ suf) ∧
    (∃ suf, (pass2Step f st rec).db.specialties = st.db.specialties ++ suf) ∧
    (∃ suf, (pass2Step f st rec).db.programs = st.db.programs ++ suf) := by
  unfold pass2Step
  split
  · exact ⟨⟨[], (List.append_nil _).symm⟩, ⟨[], (List.append_nil _).symm⟩,
      ⟨[], (List.append_nil _).symm⟩⟩
  · split
    · exact ⟨⟨[], (List.append_nil _).symm⟩, ⟨[], (List.append_nil _).symm⟩,
        ⟨[], (List.append_nil _).symm⟩⟩
    · split
      · exact ⟨⟨[], (List.append_nil _).symm⟩, ⟨[], (List.append_nil _).symm⟩,
          ⟨[], (List.append_nil _).symm⟩⟩
      · obtain ⟨⟨g2, hg2⟩, ⟨sp2, hsp2⟩, ⟨pr2, hpr2⟩⟩ :=
          foldl_progStep_shape f _ rec.programs (linkParent st rec _)
        exact ⟨⟨g2, by rw [hg2, (linkParent_frame st rec _).1]⟩,
          ⟨sp2, by rw [hsp2, (linkParent_frame st rec _).2.1]⟩,
          ⟨pr2, by rw [hpr2, (linkParent_frame st rec _).2.2.1]⟩⟩

theorem pass2Step_cacheSok (f : Nat → Bool) (st : St) (rec : OrgData)
    (hS : cacheSok st.cacheS st.db.specialties) :
    cacheSok (pass2Step f st rec).cacheS (pass2Step f st rec).db.specialties := by
  unfold pass2Step
  split
  · exact hS
  · split
    · exact hS
    · split
      · exact hS
      · refine foldl_progStep_cacheSok f _ rec.programs (linkParent st rec _) ?_
        rw [(linkParent_frame st rec _).2.2.2.2.1, (linkParent_frame st rec _).2.1]
        exact hS

theorem pass2Step_cacheGok (f : Nat → Bool) (st : St) (rec : OrgData)
    (hG : cacheGok st.cacheG st.db.specialty_groups) :
    cacheGok (pass2Step f st rec).cacheG
      (pass2Step f st rec).db.specialty_groups := by
  unfold pass2Step
  split
  · exact hG
  · split
    · exact hG
    · split
      · exact hG
      · refine foldl_progStep_cacheGok f _ rec.programs (linkParent st rec _) ?_
        rw [(linkParent_frame st rec _).2.2.2.2.2.1, (linkParent_frame st rec _).1]
        exact hG

theorem pass2Step_cacheOok (f : Nat → Bool) (st : St) (rec : OrgData)
    (hO : cacheOok st.cacheO st.db.organizations) :
    cacheOok (pass2Step f st rec).cacheO (pass2Step f st rec).db.organizations := by
  rw [pass2Step_cacheO]
  exact cacheOok_congr hO (pass2Step_orgs_len f st rec).symm
    (pass2Step_orgsEvolve f st rec)

theorem mem_of_getElem_opt {α : Type} {l : List α} {i : Nat} {a : α}
    (h : l[i]? = some a) : a ∈ l := by
  obtain ⟨hlt, hget⟩ := List.getElem?_eq_some.mp h
  exact hget ▸ List.getElem_mem hlt

theorem pass2Step_establish (st : St) (rec : OrgData)
    (hok : st.errFlag = none) (hok2 : (pass2Step noFaults st rec).errFlag = none)
    (hOok : cacheOok st.cacheO st.db.organizations)
    (hSok : cacheSok st.cacheS st.db.specialties)
    (hGok : cacheGok st.cacheG st.db.specialty_groups)
    (hg : rec.ogrn ≠ "") (i : Nat)
    (hi : cacheLookup rec.ogrn st.cacheO = some i) :
    ∀ prog ∈ rec.programs, progFact (pass2Step noFaults st rec).db rec.ogrn prog := by
  unfold pass2Step at hok2 ⊢
  rw [show st.errFlag.isSome = false by rw [hok]; rfl] at hok2 ⊢
  rw [if_neg (by simp)] at hok2 ⊢
  rw [if_neg hg] at hok2 ⊢
  simp only [hi] at hok2 ⊢
  have hlf := linkParent_frame st rec i
  have hev1 := linkParent_orgsEvolve st rec i
  have hlen1 := hlf.2.2.2.2.2.2.2
  have hO1 : cacheOok (linkParent st rec i).cacheO
      (linkParent st rec i).db.organizations := by
    rw [hlf.2.2.2.1]
    exact cacheOok_congr hOok hlen1.symm hev1
  have hS1 : cacheSok (linkParent st rec i).cacheS
      (linkParent st rec i).db.specialties := by
    rw [hlf.2.2.2.2.1, hlf.2.1]
    exact hSok
  have hG1 : cacheGok (linkParent st rec i).cacheG
      (linkParent st rec i).db.specialty_groups := by
    rw [hlf.2.2.2.2.2.1, hlf.1]
    exact hGok
  have hIdx0 : firstIdxOgrn rec.ogrn st.db.organizations = some i :=
    hOok (rec.ogrn, i) (cacheLookup_mem hi)
  have hIdx1 : firstIdxOgrn rec.ogrn (linkParent st rec i).db.organizations =
      some i := by
    rw [← orgsEvolve_firstIdx hev1 hlen1.symm]
    exact hIdx0
  obtain ⟨_, hPfin⟩ := foldGoodMem (progStep noFaults i) (fun _ => True)
    (fun s => cacheOok s.cacheO s.db.organizations ∧
      cacheSok s.cacheS s.db.specialties ∧
      cacheGok s.cacheG s.db.specialty_groups ∧
      firstIdxOgrn rec.ogrn s.db.organizations = some i)
    (fun prog s => progFact s.db rec.ogrn prog)
    (progStep_absorb noFaults i)
    (fun s p _ hIs => ⟨by rw [progStep_cacheO, progStep_orgs]; exact hIs.1,
      progStep_cacheSok noFaults i s p hIs.2.1,
      progStep_cacheGok noFaults i s p hIs.2.2.1,
      by rw [progStep_orgs]; exact hIs.2.2.2⟩)
    (fun s p _ hsok hsok2 hIs =>
      progStep_establish s p rec.ogrn i hsok hsok2 hIs.2.2.1 hIs.2.1 hIs.2.2.2)
    (fun s p b _ hPb => by
      obtain ⟨hg1, hsp1, hpr1⟩ := progStep_shape noFaults i s p
      refine progFact_mono hg1 hsp1 hpr1 ?_ ?_ hPb
      · rw [progStep_orgs]
      · rw [progStep_orgs]
        exact orgsEvolve_refl _)
    rec.programs (fun _ _ => trivial) (linkParent st rec i)
    ⟨hO1, hS1, hG1, hIdx1⟩ hok2
  exact hPfin

theorem run1_facts (d : DB) (recs : List OrgData)
    (hok : (populateBody noFaults d recs).errFlag = none) :
    ∀ rec ∈ recs, recFact (populateBody noFaults d recs).db rec := by
  obtain ⟨hAerr, hAcs, hAcg, hAook, hAcomp⟩ := pass1_run1_post d recs
  have hbody : populateBody noFaults d recs =
      List.foldl (pass2Step noFaults)
        (List.foldl (pass1Step noFaults) (initSt d) recs) recs := by
    unfold populateBody
    dsimp only
    rw [show (List.foldl (pass1Step noFaults) (initSt d) recs).errFlag.isSome =
      false by rw [hAerr]; rfl]
    rw [if_neg (by simp)]
  rw [hbody] at hok ⊢
  obtain ⟨hIfin, hPfin⟩ := foldGoodMem (pass2Step noFaults)
    (fun rec => rec ∈ recs)
    (fun s => cacheOok s.cacheO s.db.organizations ∧
      cacheSok s.cacheS s.db.specialties ∧
      cacheGok s.cacheG s.db.specialty_groups ∧
      s.cacheO = (List.foldl (pass1Step noFaults) (initSt d) recs).cacheO)
    (fun rec s => rec.ogrn ≠ "" →
      ∀ prog ∈ rec.programs, progFact s.db rec.ogrn prog)
    (pass2Step_absorb noFaults)
    (fun s a _ hIs => ⟨pass2Step_cacheOok noFaults s a hIs.1,
      pass2Step_cacheSok noFaults s a hIs.2.1,
      pass2Step_cacheGok noFaults s a hIs.2.2.1,
      (pass2Step_cacheO noFaults s a).trans hIs.2.2.2⟩)
    (fun s a hmem hsok hsok2 hIs hg => by
      obtain ⟨i, hi⟩ := hAcomp a hmem hg
      rw [← hIs.2.2.2] at hi
      exact pass2Step_establish s a hsok hsok2 hIs.1 hIs.2.1 hIs.2.2.1 hg i hi)
    (fun s a b _ hPb hg prog hprog => by
      obtain ⟨hg1, hsp1, hpr1⟩ := pass2Step_shape noFaults s a
      refine progFact_mono hg1 hsp1 hpr1 ?_ (pass2Step_orgsEvolve noFaults s a)
        (hPb hg prog hprog)
      exact (pass2Step_orgs_len noFaults s a).symm)
    recs (fun a ha => ha)
    (List.foldl (pass1Step noFaults) (initSt d) recs)
    ⟨hAook, by rw [hAcs]; intro pr hpr; simp at hpr,
      by rw [hAcg]; intro pr hpr; simp at hpr, rfl⟩
    hok
  intro rec hrec hg
  refine ⟨?_, hPfin rec hrec hg⟩
  obtain ⟨i, hi⟩ := hAcomp rec hrec hg
  have hi2 : cacheLookup rec.ogrn
      (List.foldl (pass2Step noFaults)
        (List.foldl (pass1Step noFaults) (initSt d) recs) recs).cacheO =
      some i := by
    rw [hIfin.2.2.2]
    exact hi
  have hfi := hIfin.1 (rec.ogrn, i) (cacheLookup_mem hi2)
  obtain ⟨row, hrow, hrg⟩ := firstIdxOgrn_get hfi
  exact ⟨row, mem_of_getElem_opt hrow, hrg⟩

theorem groupResolve_found (st : St) (prog : ProgData)
    (hex : ∃ grow ∈ st.db.specialty_groups, grow.code = prog.ugs_code) :
    (groupResolve noFaults st prog).2.1 = false ∧
    (groupResolve noFaults st prog).2.2.db = st.db ∧
    (groupResolve noFaults st prog).2.2.errFlag = st.errFlag ∧
    (groupResolve noFaults st prog).2.2.cacheO = st.cacheO ∧
    (groupResolve noFaults st prog).2.2.cacheS = st.cacheS := by
  unfold groupResolve
  cases hc : cacheLookup prog.ugs_code st.cacheG with
  | some gid => exact ⟨rfl, rfl, rfl, rfl, rfl⟩
  | none =>
    simp only [hc]
    obtain ⟨grow, hmem, hcode⟩ := hex
    cases hg2 : st.db.specialty_groups.find? (fun g => g.code = prog.ugs_code) with
    | none =>
      rw [List.find?_eq_none] at hg2
      exact (hg2 grow hmem (by simp [hcode])).elim
    | some g2 =>
      simp only [hg2]
      exact ⟨trivial, trivial, trivial, trivial, trivial⟩

theorem specialtyResolve_found (st : St) (prog : ProgData) (gid : Nat) (b : Bool)
    (srow : SpecialtyRow)
    (hfind : st.db.specialties.find?
      (fun s => s.code = prog.specialty_code) = some srow)
    (hSok : cacheSok st.cacheS st.db.specialties) :
    (specialtyResolve noFaults st prog gid b).1 = srow.id ∧
    (specialtyResolve noFaults st prog gid b).2.1 = false ∧
    (specialtyResolve noFaults st prog gid b).2.2.db = st.db ∧
    (specialtyResolve noFaults st prog gid b).2.2.errFlag = st.errFlag ∧
    (specialtyResolve noFaults st prog gid b).2.2.cacheO = st.cacheO ∧
    cacheSok (specialtyResolve noFaults st prog gid b).2.2.cacheS
      st.db.specialties := by
  unfold specialtyResolve
  cases hc : cacheLookup prog.specialty_code st.cacheS with
  | some sid =>
    simp only [hc]
    obtain ⟨srow2, hfind2, hid⟩ := hSok (prog.specialty_code, sid)
      (cacheLookup_mem hc)
    rw [hfind] at hfind2
    injection hfind2 with h2
    subst h2
    exact ⟨hid.symm, trivial, trivial, trivial, trivial, hSok⟩
  | none =>
    simp only [hc, hfind]
    refine ⟨trivial, trivial, trivial, trivial, trivial, ?_⟩
    intro pr hpr
    rcases List.mem_cons.mp hpr with h1 | h1
    · rw [h1]
      exact ⟨srow, hfind, rfl⟩
    · exact hSok pr h1

theorem programInsert_found (st : St) (orgIdx sid : Nat) (p : ProgramRow)
    (orow : OrgRow)
    (hrow : st.db.organizations.get? orgIdx = some orow)
    (hmem : p ∈ st.db.programs) (hporg : p.organization_id = orow.id)
    (hpspec : p.specialty_id = sid) :
    programInsert noFaults st orgIdx sid false = st := by
  unfold programInsert
  rw [hrow]
  simp only [Option.elim_some, Bool.false_eq_true, if_false]
  cases hf : st.db.programs.find?
      (fun q => q.organization_id = orow.id && q.specialty_id = sid) with
  | some q => simp only [hf]
  | none =>
    rw [List.find?_eq_none] at hf
    exact (hf p hmem (by simp [hporg, hpspec])).elim

theorem progStep_run2 (d1 : DB) (g : String) (orgIdx : Nat) (st : St)
    (prog : ProgData)
    (hQ : progFact d1 g prog)
    (hErr : st.errFlag = none)
    (hSame : sameButOrgs d1 st.db)
    (hSok : cacheSok st.cacheS st.db.specialties)
    (hIdx : firstIdxOgrn g st.db.organizations = some orgIdx) :
    (progStep noFaults orgIdx st prog).errFlag = none ∧
    (progStep noFaults orgIdx st prog).db = st.db ∧
    (progStep noFaults orgIdx st prog).cacheO = st.cacheO ∧
    cacheSok (progStep noFaults orgIdx st prog).cacheS st.db.specialties := by
  unfold progStep
  rw [show st.errFlag.isSome = false by rw [hErr]; rfl]
  rw [if_neg (by simp)]
  by_cases hcodes : (decide (prog.specialty_code = "") ||
      decide (prog.ugs_code = "")) = true
  · rw [if_pos hcodes]
    exact ⟨hErr, rfl, rfl, hSok⟩
  · rw [if_neg hcodes]
    dsimp only
    have hsc : prog.specialty_code ≠ "" := by
      intro h
      exact hcodes (by simp [h])
    have huc : prog.ugs_code ≠ "" := by
      intro h
      exact hcodes (by simp [h])
    obtain ⟨⟨grow, hgmem, hgcode⟩, srow, oi, orow, hsfind, hoidx, horow, p,
      hpmem, hporg, hpspec⟩ := hQ hsc huc
    have hgex : ∃ grow ∈ st.db.specialty_groups, grow.code = prog.ugs_code :=
      ⟨grow, by rw [hSame.2.1]; exact hgmem, hgcode⟩
    have hgf := groupResolve_found st prog hgex
    rw [show (groupResolve noFaults st prog).2.2.errFlag.isSome = false by
      rw [hgf.2.2.1, hErr]; rfl]
    rw [if_neg (by simp)]
    have hsfind2 : (groupResolve noFaults st prog).2.2.db.specialties.find?
        (fun s => s.code = prog.specialty_code) = some srow := by
      rw [hgf.2.1, hSame.2.2.1]
      exact hsfind
    have hsS2 : cacheSok (groupResolve noFaults st prog).2.2.cacheS
        (groupResolve noFaults st prog).2.2.db.specialties := by
      rw [hgf.2.2.2.2, hgf.2.1]
      exact hSok
    have hsf := specialtyResolve_found (groupResolve noFaults st prog).2.2 prog
      (groupResolve noFaults st prog).1 (groupResolve noFaults st prog).2.1
      srow hsfind2 hsS2
    rw [show (specialtyResolve noFaults (groupResolve noFaults st prog).2.2 prog
        (groupResolve noFaults st prog).1
        (groupResolve noFaults st prog).2.1).2.2.errFlag.isSome = false by
      rw [hsf.2.2.2.1, hgf.2.2.1, hErr]; rfl]
    rw [if_neg (by simp)]
    -- identify the organization row at orgIdx
    have hoi : oi = orgIdx := by
      have := orgsEvolve_firstIdx (g := g) hSame.2.2.2.2.2.2.2.2.2.2
        hSame.2.2.2.2.2.2.2.2.2.1.symm
      rw [hoidx] at this
      rw [hIdx] at this
      exact Option.some.inj this
    obtain ⟨orow2, horow2, hcore⟩ :=
      hSame.2.2.2.2.2.2.2.2.2.2 oi orow horow
    have horow3 : (specialtyResolve noFaults (groupResolve noFaults st prog).2.2
        prog (groupResolve noFaults st prog).1
        (groupResolve noFaults st prog).2.1).2.2.db.organizations.get? orgIdx =
        some orow2 := by
      rw [List.get?_eq_getElem?, hsf.2.2.1, hgf.2.1, ← hoi]
      exact horow2
    have hpins := programInsert_found
      (specialtyResolve noFaults (groupResolve noFaults st prog).2.2 prog
        (groupResolve noFaults st prog).1 (groupResolve noFaults st prog).2.1).2.2
      orgIdx srow.id p orow2 horow3
      (by rw [hsf.2.2.1, hgf.2.1, hSame.2.2.2.1]; exact hpmem)
      (by rw [hporg, hcore.1]) hpspec
    rw [hsf.2.1, hsf.1, hpins]
    refine ⟨?_, ?_, ?_, ?_⟩
    · rw [hsf.2.2.2.1, hgf.2.2.1, hErr]
    · rw [hsf.2.2.1, hgf.2.1]
    · rw [hsf.2.2.2.2.1, hgf.2.2.2.1]
    · have h5 := hsf.2.2.2.2.2
      rw [hgf.2.1] at h5
      exact h5

theorem linkParent_db_rest (st : St) (rec : OrgData) (orgIdx : Nat) :
    (linkParent st rec orgIdx).db.regions = st.db.regions ∧
    (linkParent st rec orgIdx).db.nextRegionId = st.db.nextRegionId ∧
    (linkParent st rec orgIdx).db.nextGroupId = st.db.nextGroupId ∧
    (linkParent st rec orgIdx).db.nextSpecialtyId = st.db.nextSpecialtyId ∧
    (linkParent st rec orgIdx).db.nextOrgId = st.db.nextOrgId ∧
    (linkParent st rec orgIdx).db.nextProgramId = st.db.nextProgramId := by
  unfold linkParent
  dsimp only
  repeat' split
  all_goals exact ⟨rfl, rfl, rfl, rfl, rfl, rfl⟩

theorem pass2Step_run2 (d1 : DB) (st : St) (rec : OrgData)
    (hQ : recFact d1 rec)
    (hErr : st.errFlag = none) (hSame : sameButOrgs d1 st.db)
    (hOok : cacheOok st.cacheO st.db.organizations)
    (hSok : cacheSok st.cacheS st.db.specialties) :
    (pass2Step noFaults st rec).errFlag = none ∧
    sameButOrgs d1 (pass2Step noFaults st rec).db ∧
    cacheOok (pass2Step noFaults st rec).cacheO
      (pass2Step noFaults st rec).db.organizations ∧
    cacheSok (pass2Step noFaults st rec).cacheS
      (pass2Step noFaults st rec).db.specialties := by
  unfold pass2Step
  rw [show st.errFlag.isSome = false by rw [hErr]; rfl]
  rw [if_neg (by simp)]
  by_cases hg : rec.ogrn = ""
  · rw [if_pos hg]
    exact ⟨hErr, hSame, hOok, hSok⟩
  · rw [if_neg hg]
    cases hcl : cacheLookup rec.ogrn st.cacheO with
    | none =>
      simp only [hcl]
      exact ⟨hErr, hSame, hOok, hSok⟩
    | some orgIdx =>
      simp only [hcl]
      have hlf := linkParent_frame st rec orgIdx
      have hrest := linkParent_db_rest st rec orgIdx
      have hev1 := linkParent_orgsEvolve st rec orgIdx
      have hlen1 := hlf.2.2.2.2.2.2.2
      have hErr1 : (linkParent st rec orgIdx).errFlag = none :=
        hlf.2.2.2.2.2.2.1.trans hErr
      have hSame1 : sameButOrgs d1 (linkParent st rec orgIdx).db :=
        ⟨hrest.1.trans hSame.1, hlf.1.trans hSame.2.1, hlf.2.1.trans hSame.2.2.1,
          hlf.2.2.1.trans hSame.2.2.2.1, hrest.2.1.trans hSame.2.2.2.2.1,
          hrest.2.2.1.trans hSame.2.2.2.2.2.1,
          hrest.2.2.2.1.trans hSame.2.2.2.2.2.2.1,
          hrest.2.2.2.2.1.trans hSame.2.2.2.2.2.2.2.1,
          hrest.2.2.2.2.2.trans hSame.2.2.2.2.2.2.2.2.1,
          hlen1.trans hSame.2.2.2.2.2.2.2.2.2.1,
          orgsEvolve_trans hSame.2.2.2.2.2.2.2.2.2.2 hev1⟩
      have hO1 : cacheOok (linkParent st rec orgIdx).cacheO
          (linkParent st rec orgIdx).db.organizations := by
        rw [hlf.2.2.2.1]
        exact cacheOok_congr hOok hlen1.symm hev1
      have hS1 : cacheSok (linkParent st rec orgIdx).cacheS
          (linkParent st rec orgIdx).db.specialties := by
        rw [hlf.2.2.2.2.1, hlf.2.1]
        exact hSok
      have hIdx1 : firstIdxOgrn rec.ogrn
          (linkParent st rec orgIdx).db.organizations = some orgIdx := by
        rw [← orgsEvolve_firstIdx hev1 hlen1.symm]
        exact hOok (rec.ogrn, orgIdx) (cacheLookup_mem hcl)
      have hfold := foldInv (progStep noFaults orgIdx)
        (fun p => progFact d1 rec.ogrn p)
        (fun s => s.errFlag = none ∧ s.db = (linkParent st rec orgIdx).db ∧
          s.cacheO = (linkParent st rec orgIdx).cacheO ∧
          cacheSok s.cacheS (linkParent st rec orgIdx).db.specialties)
        (fun s p hQp hIs => by
          have hsame2 : sameButOrgs d1 s.db := hIs.2.1 ▸ hSame1
          have hsok2 : cacheSok s.cacheS s.db.specialties := by
            rw [hIs.2.1]
            exact hIs.2.2.2
          have hidx2 : firstIdxOgrn rec.ogrn s.db.organizations = some orgIdx := by
            rw [hIs.2.1]
            exact hIdx1
          obtain ⟨he, hdb, hco, hcs⟩ := progStep_run2 d1 rec.ogrn orgIdx s p hQp
            hIs.1 hsame2 hsok2 hidx2
          refine ⟨he, hdb.trans hIs.2.1, hco.trans hIs.2.2.1, ?_⟩
          have := hcs
          rw [hIs.2.1] at this
          exact this)
        rec.programs
        (fun p hp => (hQ hg).2 p hp)
        (linkParent st rec orgIdx)
        ⟨hErr1, rfl, rfl, hS1⟩
      obtain ⟨hfe, hfdb, hfco, hfcs⟩ := hfold
      refine ⟨hfe, hfdb ▸ hSame1, ?_, ?_⟩
      · rw [hfdb, hfco]
        exact hO1
      · rw [hfdb]
        exact hfcs

theorem sameButOrgs_refl (d : DB) : sameButOrgs d d :=
  ⟨rfl, rfl, rfl, rfl, rfl, rfl, rfl, rfl, rfl, rfl, orgsEvolve_refl _⟩

theorem pass1Step_run2 (d1 : DB) (st : St) (rec : OrgData)
    (hQ : recFact d1 rec)
    (hdb : st.db = d1) (hErr : st.errFlag = none)
    (hOok : cacheOok st.cacheO d1.organizations) :
    (pass1Step noFaults st rec).db = d1 ∧
    (pass1Step noFaults st rec).errFlag = none ∧
    cacheOok (pass1Step noFaults st rec).cacheO d1.organizations := by
  unfold pass1Step
  rw [show st.errFlag.isSome = false by rw [hErr]; rfl]
  rw [if_neg (by simp)]
  dsimp only
  by_cases hg : rec.ogrn = ""
  · rw [if_pos hg]
    exact ⟨hdb, hErr, hOok⟩
  · rw [if_neg hg]
    cases hcl : cacheLookup rec.ogrn st.cacheO with
    | some i =>
      simp only [hcl]
      exact ⟨hdb, hErr, hOok⟩
    | none =>
      simp only [hcl]
      obtain ⟨orow, hmem, hog⟩ := (hQ hg).1
      obtain ⟨idx, hidx⟩ := firstIdxOgrn_isSome_of_mem hmem hog
      rw [hdb]
      simp only [hidx]
      refine ⟨trivial, hErr, ?_⟩
      intro pr hpr
      rcases List.mem_cons.mp hpr with h1 | h1
      · subst h1
        exact hidx
      · exact hOok pr h1

theorem pass1_run2 (d1 : DB) (recs : List OrgData)
    (hF : ∀ rec ∈ recs, recFact d1 rec) :
    (List.foldl (pass1Step noFaults) (initSt d1) recs).db = d1 ∧
    (List.foldl (pass1Step noFaults) (initSt d1) recs).errFlag = none ∧
    cacheOok (List.foldl (pass1Step noFaults) (initSt d1) recs).cacheO
      d1.organizations ∧
    (List.foldl (pass1Step noFaults) (initSt d1) recs).cacheS = [] :=
  foldInv (pass1Step noFaults) (recFact d1)
    (fun s => s.db = d1 ∧ s.errFlag = none ∧
      cacheOok s.cacheO d1.organizations ∧ s.cacheS = [])
    (fun s rec hQ hIs => by
      obtain ⟨h1, h2, h3⟩ := pass1Step_run2 d1 s rec hQ hIs.1 hIs.2.1 hIs.2.2.1
      exact ⟨h1, h2, h3,
        (pass1Step_frame noFaults s rec).2.2.2.1.trans hIs.2.2.2⟩)
    recs hF (initSt d1)
    ⟨rfl, rfl, fun pr hpr => absurd hpr (List.not_mem_nil pr), rfl⟩

theorem run2_ok (d1 : DB) (recs : List OrgData)
    (hF : ∀ rec ∈ recs, recFact d1 rec) :
    ∃ d2 ws2, populateDb d1 recs true noFaults = .ok d2 ws2 ∧
      rowCounts d2 = rowCounts d1 := by
  by_cases hrecs : recs = []
  · subst hrecs
    exact ⟨d1, [], rfl, rfl⟩
  · obtain ⟨hdb1, herr1, hook1, hcs1⟩ := pass1_run2 d1 recs hF
    have hbody : populateBody noFaults d1 recs =
        List.foldl (pass2Step noFaults)
          (List.foldl (pass1Step noFaults) (initSt d1) recs) recs := by
      unfold populateBody
      dsimp only
      rw [show (List.foldl (pass1Step noFaults) (initSt d1) recs).errFlag.isSome =
        false by rw [herr1]; rfl]
      rw [if_neg (by simp)]
    have hJ := foldInv (pass2Step noFaults) (recFact d1)
      (fun s => s.errFlag = none ∧ sameButOrgs d1 s.db ∧
        cacheOok s.cacheO s.db.organizations ∧
        cacheSok s.cacheS s.db.specialties)
      (fun s rec hQ hIs =>
        pass2Step_run2 d1 s rec hQ hIs.1 hIs.2.1 hIs.2.2.1 hIs.2.2.2)
      recs hF (List.foldl (pass1Step noFaults) (initSt d1) recs)
      ⟨herr1, by rw [hdb1]; exact sameButOrgs_refl d1,
        by rw [hdb1]; exact hook1,
        by rw [hcs1]; intro pr hpr; exact absurd hpr (List.not_mem_nil pr)⟩
    have herrF : (populateBody noFaults d1 recs).errFlag = none := by
      rw [hbody]
      exact hJ.1
    refine ⟨(populateBody noFaults d1 recs).db,
      (populateBody noFaults d1 recs).warnings, ?_, ?_⟩
    · rw [populateDb, if_neg hrecs]
      simp only [not_true, if_neg, ite_false]
      simp only [herrF]
      rw [show noFaults (populateBody noFaults d1 recs).tick = false from rfl]
      simp only [Bool.false_eq_true, if_false]
    · rw [hbody]
      have hsame := hJ.2.1
      simp only [rowCounts, hsame.1, hsame.2.1, hsame.2.2.1, hsame.2.2.2.1,
        hsame.2.2.2.2.2.2.2.2.2.1]

/-- C2: reconciling the same parsed input twice produces no duplicate rows —
whenever a run of `_populate_db` over `recs` commits successfully and yields
database `d1`, running it again on `d1` with the same `recs` also commits, and
the row counts of Region, SpecialtyGroup, Specialty, EducationalOrganization
and EducationalProgram after the second run equal those after the first. -/
theorem c2_reconcile_idempotent (d : DB) (recs : List OrgData) (d1 : DB)
    (ws1 : List LogWarning)
    (h : populateDb d recs true noFaults = .ok d1 ws1) :
    ∃ d2 ws2, populateDb d1 recs true noFaults = .ok d2 ws2 ∧
      rowCounts d2 = rowCounts d1 := by
  by_cases hrecs : recs = []
  · subst hrecs
    exact ⟨d1, [], rfl, rfl⟩
  · have hd1 : d1 = (populateBody noFaults d recs).db := populateDb_ok_db h
    have herr : (populateBody noFaults d recs).errFlag = none := by
      rw [populateDb, if_neg hrecs] at h
      simp only [not_true, if_neg, ite_false] at h
      cases hE : (populateBody noFaults d recs).errFlag with
      | some e2 => rw [hE] at h; cases h
      | none => rfl
    have hF := run1_facts d recs herr
    rw [← hd1] at hF
    exact run2_ok d1 recs hF

theorem c2_witness :
    ∃ d2 ws2, populateDb d1C2 [recC2w] true noFaults = .ok d2 ws2 ∧
      rowCounts d2 = rowCounts d1C2 :=
  c2_reconcile_idempotent emptyDB [recC2w] d1C2 [] (by decide)
